import Mathlib

/-!
The frame reader/decoder loop of co2mond, `src/co2mond/src/main.c`.

A shallow embedding of `decode_temperature`, `device_loop`, `open_device`, `main_loop` and
`main`.

* The transport (`co2mon_init`, the open calls, `co2mon_send_magic_table`,
  `co2mon_read_data`) is external: a session is given by the values the init call, the open
  call and the key write return and by the list of results that the successive reads return.
* What the functions do is recorded as a list of events: the transport calls they make and
  the records they print on standard output, in order.
* C `int` values stay `Int`, `unsigned char` values are `Fin 256` read through `.val` with
  the truncations written out as `% 256` and `% 65536`.
* A C `double` is the exact rational value of a finite binary64 number: every conversion
  and operation of `decode_temperature` rounds to the nearest binary64 value, ties to even.
  The temperature of a printed success record is the number that the `%.4f` text denotes.
-/

namespace Co2mond

/-! ## Data model -/

/-- Modelled from the spec: the type `co2mon_data_t` is declared in `co2mon.h`, which is not
among the sources; the spec fixes a report as an 8-byte sequence (`unsigned char[8]`). -/
abbrev co2mon_data_t := Fin 8 → Fin 256

/-- Ambient temperature code, `#define CODE_TAMB 0x42`. -/
def CODE_TAMB : Nat := 0x42

/-- Relative CO2 concentration code, `#define CODE_CNTR 0x50`. -/
def CODE_CNTR : Nat := 0x50

/-! ### binary64 arithmetic

Finite binary64 values with round-to-nearest, ties-to-even. The exponent range is not
bounded: overflow, subnormal numbers, infinities, NaN and the sign of zero are not modelled.
Every value of this program is zero or has a magnitude between `2 ^ (-6)` and `2 ^ 16`. -/

/-- The quotient `n / d` rounded to the nearest integer, ties to even. -/
def div_round_even (n d : Nat) : Nat :=
  if 2 * (n % d) < d then n / d
  else if d < 2 * (n % d) then n / d + 1
  else if (n / d) % 2 = 0 then n / d else n / d + 1

/-- The number of binary digits of `n`, computed with `fuel` halvings at most. -/
def bit_length_aux : Nat → Nat → Nat
  | 0, _ => 0
  | fuel + 1, n => if n = 0 then 0 else bit_length_aux fuel (n / 2) + 1

/-- The number of binary digits of `n` (0 for 0). -/
def bit_length (n : Nat) : Nat :=
  bit_length_aux n n

/-- A finite binary64 value, `mant / 2 ^ scale`. -/
structure Double where
  mant : Int
  scale : Int
  deriving DecidableEq

/-- The numerator of `mant / 2 ^ scale` written as a fraction of integers. -/
def Double.num (x : Double) : Int :=
  x.mant * 2 ^ (-x.scale).toNat

/-- The denominator of `mant / 2 ^ scale` written as a fraction of integers. -/
def Double.den (x : Double) : Nat :=
  2 ^ x.scale.toNat

/-- The exact value of a binary64 number. -/
def Double.toRat (x : Double) : ℚ :=
  (x.num : ℚ) / (x.den : ℚ)

/-- The binary64 value nearest to `n / d`, ties to even: the scale is chosen so that the
scaled magnitude lies between `2 ^ 52` and `2 ^ 53`, and is then rounded to an integer. -/
def binary64 (n : Int) (d : Nat) : Double :=
  if n = 0 then ⟨0, 0⟩
  else
    let a := n.natAbs
    let s0 : Int := 52 + (bit_length d : Int) - (bit_length a : Int)
    let s : Int :=
      if a * 2 ^ s0.toNat < 2 ^ 52 * (d * 2 ^ (-s0).toNat) then s0 + 1 else s0
    ⟨n.sign * (div_round_even (a * 2 ^ s.toNat) (d * 2 ^ (-s).toNat) : Nat), s⟩

/-- The binary64 product `x * y`: the exact product, rounded. -/
def Double.mul (x y : Double) : Double :=
  binary64 (x.num * y.num) (x.den * y.den)

/-- The binary64 difference `x - y`: the exact difference, rounded. -/
def Double.sub (x y : Double) : Double :=
  binary64 (x.num * y.den - y.num * x.den) (x.den * y.den)

/-- The integer nearest to `y`, ties to even. -/
def round_half_even (y : ℚ) : Int :=
  if y - ⌊y⌋ < 1 / 2 then ⌊y⌋
  else if 1 / 2 < y - ⌊y⌋ then ⌊y⌋ + 1
  else if ⌊y⌋ % 2 = 0 then ⌊y⌋ else ⌊y⌋ + 1

/-- The number that the text printed for `x` by the conversion `%.4f` denotes: `x` rounded
to four decimals. -/
def printf_4f (x : ℚ) : ℚ :=
  (round_half_even (x * 10 ^ 4) : ℚ) / 10 ^ 4

/-- The function `decode_temperature(uint16_t w)`, `return (double)w * 0.0625 - 273.15;`, as
the exact value of the binary64 result. The argument is truncated to 16 bits and converted,
the literals `0.0625` and `273.15` are the binary64 values nearest to `625 / 10 ^ 4` and
`27315 / 10 ^ 2`, and the product and the difference are rounded. -/
def decode_temperature (w : Nat) : ℚ :=
  (Double.sub (Double.mul (binary64 ((w % 65536 : Nat) : Int) 1) (binary64 625 (10 ^ 4)))
    (binary64 27315 (10 ^ 2))).toRat

/-- The records `device_loop` prints on standard output, one constructor per `fprintf`. -/
inductive Record where
  /-- Line 57: `"success": false`, unable to send magic table. -/
  | magic_table_error : Record
  /-- Line 72: `"success": false`, error while reading data. -/
  | read_error : Record
  /-- Line 78: `"success": false`, unexpected `data[4]`. -/
  | unexpected_data (data4 : Nat) : Record
  /-- Line 90: `"success": false`, checksum error (computed, awaited). -/
  | checksum_error (checksum r3 : Nat) : Record
  /-- Line 115: `"success": true` with the temperature as rendered by `%.4f` and the co2
  value as rendered by `%d`. -/
  | data (temperature : ℚ) (co2 : Int) : Record
  deriving DecidableEq

/-- The value of the `"success"` field of a printed record. -/
def Record.success : Record → Bool
  | .data _ _ => true
  | _ => false

/-- The records that report a discarded frame (lines 78 and 90). -/
def Record.is_frame_report : Record → Bool
  | .unexpected_data _ => true
  | .checksum_error _ _ => true
  | _ => false

/-- What `device_loop` does, in order: transport calls and printed records. -/
inductive Event where
  /-- A call `co2mon_send_magic_table(dev, magic_table)`. -/
  | send_magic_table (magic_table : co2mon_data_t) : Event
  /-- A call `co2mon_read_data(dev, magic_table, result)`. -/
  | read_data (magic_table : co2mon_data_t) : Event
  /-- A call `fprintf(stdout, ...)`. -/
  | fprintf (rec : Record) : Event

/-- The records printed in a run, in order. -/
def printed : List Event → List Record
  | [] => []
  | .fprintf rec :: ev => rec :: printed ev
  | _ :: ev => printed ev

/-- The number of `co2mon_read_data` calls made in a run. -/
def reads_performed : List Event → Nat
  | [] => 0
  | .read_data _ :: ev => reads_performed ev + 1
  | _ :: ev => reads_performed ev

/-- One call of `co2mon_read_data`: the returned `int r` and the contents of the `result`
buffer after the call. -/
structure ReadResult where
  r : Int
  result : co2mon_data_t

/-- The local variables of `device_loop` declared at lines 61-64. -/
structure LoopState where
  has_temp : Int
  has_co2 : Int
  temperature : ℚ
  co2 : Int
  deriving DecidableEq

/-! ## `device_loop` -/

/-- C logical negation `!x` on `int`. -/
def lnot (x : Int) : Int :=
  if x = 0 then 1 else 0

/-- The loop condition of line 66, `!has_temp | !has_co2`, tested for being non-zero. -/
def loop_cond (s : LoopState) : Bool :=
  decide (Int.lor (lnot s.has_temp) (lnot s.has_co2) ≠ 0)

/-- The `switch (r0)` of lines 96-113 on the code `r0` and the raw value `w`. -/
def dispatch (s : LoopState) (r0 w : Nat) : LoopState :=
  if r0 = CODE_TAMB then
    { s with temperature := decode_temperature w, has_temp := 1 }
  else if r0 = CODE_CNTR then
    if w > 3000 then s
    else { s with has_co2 := 1, co2 := (w : Int) }
  else s

/-- The raw value of line 94, `uint16_t w = (result[1] << 8) + result[2]`. -/
def raw_value (result : co2mon_data_t) : Nat :=
  (((result 1).val <<< 8) + (result 2).val) % 65536

/-- The outcome of one pass through the loop body. -/
structure Iteration where
  /-- The local variables after the pass. -/
  state : LoopState
  /-- The records printed during the pass. -/
  out : List Record
  /-- Whether the pass left the loop through `break`. -/
  brk : Bool
  deriving DecidableEq

/-- The loop body, lines 69-113, on the result of its `co2mon_read_data` call. -/
def loop_body (s : LoopState) (rd : ReadResult) : Iteration :=
  if rd.r ≤ 0 then
    ⟨s, [.read_error], true⟩
  else if (rd.result 4).val ≠ 0x0d then
    ⟨s, [.unexpected_data (rd.result 4).val], false⟩
  else
    let r0 := (rd.result 0).val
    let r1 := (rd.result 1).val
    let r2 := (rd.result 2).val
    let r3 := (rd.result 3).val
    let checksum := (r0 + r1 + r2) % 256
    if checksum ≠ r3 then
      ⟨s, [.checksum_error checksum r3], false⟩
    else
      let w := raw_value rd.result
      ⟨dispatch s r0 w, [], false⟩

/-- The events of one pass: the read call, then what the body printed. -/
def iteration_events (magic_table : co2mon_data_t) (it : Iteration) : List Event :=
  .read_data magic_table :: it.out.map .fprintf

/-- The `while` loop of lines 66-114 run on the results of the successive reads. The value
is `none` when the loop is still running after the last supplied read result; otherwise it
is the local variables on leaving the loop and the events of the loop. -/
def while_loop (magic_table : co2mon_data_t) :
    LoopState → List ReadResult → Option (LoopState × List Event)
  | s, [] => if loop_cond s then none else some (s, [])
  | s, rd :: rest =>
    if loop_cond s then
      let it := loop_body s rd
      if it.brk then
        some (it.state, iteration_events magic_table it)
      else
        match while_loop magic_table it.state rest with
        | none => none
        | some (s', ev) => some (s', iteration_events magic_table it ++ ev)
    else some (s, [])

/-- The all-zero key, `co2mon_data_t magic_table = { 0 }`. -/
def magic_table : co2mon_data_t := fun _ => 0

/-- The function `device_loop`. `send_ret` is what `co2mon_send_magic_table` returns and
`reads` are the results of the successive `co2mon_read_data` calls. The value is the list of
events of the call, or `none` when the loop is still running after the last supplied read
result. -/
def device_loop (send_ret : Int) (reads : List ReadResult) : Option (List Event) :=
  if lnot send_ret ≠ 0 then
    some [.send_magic_table magic_table, .fprintf .magic_table_error]
  else
    match while_loop magic_table ⟨0, 0, 0.0, 0⟩ reads with
    | none => none
    | some (s, ev) =>
      some (.send_magic_table magic_table :: ev ++
        [.fprintf (.data (printf_4f s.temperature) s.co2)])

/-- The local variables after the loop body has processed the given read results in turn. -/
def run_frames (s : LoopState) (frames : List ReadResult) : LoopState :=
  frames.foldl (fun st rd => (loop_body st rd).state) s

/-! ## `main_loop` and `main` -/

/-- Modelled from the spec: the type `co2mon_device` is declared in `co2mon.h`, which is not
among the sources; the spec describes it as the device handle that the open call returns,
absent when the open fails. A handle is its pointer value, `NULL` being 0. -/
abbrev co2mon_device := Nat

/-- The null pointer. -/
def NULL : co2mon_device := 0

/-- The global `const char *devicefile = NULL;` of line 40, which nothing assigns. -/
def devicefile : Option String := none

/-- What `main` and `main_loop` do, in order. -/
inductive MainEvent where
  /-- The call `co2mon_init()`. -/
  | co2mon_init : MainEvent
  /-- The call `co2mon_open_device_path(devicefile)`. -/
  | co2mon_open_device_path (path : String) : MainEvent
  /-- The call `co2mon_open_device()`. -/
  | co2mon_open_device : MainEvent
  /-- Line 137: `"success": false`, unable to open CO2 device. -/
  | fprintf_open_error : MainEvent
  /-- An event of the call `device_loop(dev)`. -/
  | device_loop (dev : co2mon_device) (e : Event) : MainEvent
  /-- The call `co2mon_close_device(dev)`. -/
  | co2mon_close_device (dev : co2mon_device) : MainEvent
  /-- The call `co2mon_exit()`. -/
  | co2mon_exit : MainEvent

/-- The number of `co2mon_close_device` calls in a run. -/
def close_calls : List MainEvent → Nat
  | [] => 0
  | .co2mon_close_device _ :: ev => close_calls ev + 1
  | _ :: ev => close_calls ev

/-- The number of events of `device_loop` in a run. -/
def device_loop_events : List MainEvent → Nat
  | [] => 0
  | .device_loop _ _ :: ev => device_loop_events ev + 1
  | _ :: ev => device_loop_events ev

/-- The function `open_device`, lines 118-126, on the value of the global `devicefile`;
`open_ret` is the handle that the open call returns. -/
def open_device (devicefile : Option String) (open_ret : co2mon_device) :
    co2mon_device × List MainEvent :=
  match devicefile with
  | some path => (open_ret, [.co2mon_open_device_path path])
  | none => (open_ret, [.co2mon_open_device])

/-- The function `main_loop`, lines 128-150. `devicefile` is the value of the global,
`open_ret` the handle the open call returns, `send_ret` and `reads` are as in
`device_loop`. The value is `none` when `device_loop` is still running after the last
supplied read result. -/
def main_loop (devicefile : Option String) (open_ret : co2mon_device) (send_ret : Int)
    (reads : List ReadResult) : Option (List MainEvent) :=
  let error_shown : Int := 0
  let opened := open_device devicefile open_ret
  let dev := opened.1
  if dev = NULL then
    if lnot error_shown ≠ 0 then
      some (opened.2 ++ [.fprintf_open_error])
    else
      some opened.2
  else
    match device_loop send_ret reads with
    | none => none
    | some ev =>
      some (opened.2 ++ ev.map (.device_loop dev) ++ [.co2mon_close_device dev])

/-- The function `main`, lines 152-164: the returned `int` and the events. `init_ret` is what
`co2mon_init` returns. -/
def main (init_ret : Int) (open_ret : co2mon_device) (send_ret : Int)
    (reads : List ReadResult) : Option (Int × List MainEvent) :=
  let r := init_ret
  if r < 0 then
    some (r, [.co2mon_init])
  else
    match main_loop devicefile open_ret send_ret reads with
    | none => none
    | some ev => some (1, .co2mon_init :: ev ++ [.co2mon_exit])

/-! ## Notions of the specification -/

/-- Spec: the standard boolean loop condition "not (has_temp and has_co2)". -/
def spec_loop_cond (s : LoopState) : Bool :=
  !(decide (s.has_temp ≠ 0) && decide (s.has_co2 ≠ 0))

/-- Spec: the `while` loop with the standard boolean condition in place of the bitwise one. -/
def spec_while_loop (magic_table : co2mon_data_t) :
    LoopState → List ReadResult → Option (LoopState × List Event)
  | s, [] => if spec_loop_cond s then none else some (s, [])
  | s, rd :: rest =>
    if spec_loop_cond s then
      let it := loop_body s rd
      if it.brk then
        some (it.state, iteration_events magic_table it)
      else
        match spec_while_loop magic_table it.state rest with
        | none => none
        | some (s', ev) => some (s', iteration_events magic_table it ++ ev)
    else some (s, [])

/-- Spec: a sequence of read results that ends in a read error (`r <= 0`). -/
def ends_in_read_error (p : List ReadResult) : Prop :=
  match p.getLast? with
  | some rd => rd.r ≤ 0
  | none => False

instance : DecidablePred ends_in_read_error := fun p => by
  unfold ends_in_read_error; split <;> infer_instance

/-- Spec: a valid frame has terminator `0x0d` in byte 4 and byte 3 equal to the sum of bytes
0, 1 and 2 modulo 256. -/
def valid_frame (f : co2mon_data_t) : Prop :=
  (f 4).val = 0x0d ∧ (f 3).val = ((f 0).val + (f 1).val + (f 2).val) % 256

instance : DecidablePred valid_frame := fun f => by
  unfold valid_frame; infer_instance

/-- Spec: an accepted temperature frame is a successfully read valid frame with code `0x42`. -/
def accepted_temp (rd : ReadResult) : Prop :=
  0 < rd.r ∧ valid_frame rd.result ∧ (rd.result 0).val = 0x42

instance : DecidablePred accepted_temp := fun rd => by
  unfold accepted_temp; infer_instance

/-- Spec: an accepted CO2 frame is a successfully read valid frame with code `0x50` whose raw
value is at most 3000. -/
def accepted_co2 (rd : ReadResult) : Prop :=
  0 < rd.r ∧ valid_frame rd.result ∧ (rd.result 0).val = 0x50 ∧ raw_value rd.result ≤ 3000

instance : DecidablePred accepted_co2 := fun rd => by
  unfold accepted_co2; infer_instance

/-- Spec: a frame rejected with a report, for a bad terminator or a bad checksum. -/
def reported_reject (rd : ReadResult) : Prop :=
  0 < rd.r ∧ ¬ valid_frame rd.result

instance : DecidablePred reported_reject := fun rd => by
  unfold reported_reject; infer_instance

/-- Spec: a sequence of read results that ends in a read error or contains both an accepted
temperature frame and an accepted CO2 frame. -/
def stopping (p : List ReadResult) : Prop :=
  ends_in_read_error p ∨ ((∃ rd ∈ p, accepted_temp rd) ∧ (∃ rd ∈ p, accepted_co2 rd))

instance : DecidablePred stopping := fun p => by
  unfold stopping; infer_instance

/-- The notion `stopping` for a loop that starts in state `s`: what `s` has already observed
counts as seen. -/
def stopping_from (s : LoopState) (p : List ReadResult) : Prop :=
  ends_in_read_error p ∨
    ((s.has_temp ≠ 0 ∨ ∃ rd ∈ p, accepted_temp rd) ∧
      (s.has_co2 ≠ 0 ∨ ∃ rd ∈ p, accepted_co2 rd))

/-- Spec: the range of a CO2 concentration, `[0, 3000]`. -/
def co2_in_range (co2 : Int) : Prop :=
  0 ≤ co2 ∧ co2 ≤ 3000

/-- The results of the reads that a run performed, out of the supplied ones. -/
def frames_read (reads : List ReadResult) (ev : List Event) : List ReadResult :=
  reads.take (reads_performed ev)

/-- Spec: the raw value of the last accepted temperature frame of a sequence. -/
def last_accepted_temp (frames : List ReadResult) : Option Nat :=
  ((frames.filter fun rd => decide (accepted_temp rd)).getLast?).map fun rd => raw_value rd.result

/-- Spec: the raw value of the last accepted CO2 frame of a sequence. -/
def last_accepted_co2 (frames : List ReadResult) : Option Nat :=
  ((frames.filter fun rd => decide (accepted_co2 rd)).getLast?).map fun rd => raw_value rd.result

/-- A frame with the given first five bytes and zero reserved bytes. -/
def frame (b0 b1 b2 b3 b4 : Fin 256) : co2mon_data_t :=
  ![b0, b1, b2, b3, b4, 0, 0, 0]

/-! ## Sample frames -/

/-- A valid CO2 frame whose three-byte sum `0x50 + 0xff + 0xff` exceeds 255. -/
def sample_wrapping_frame : ReadResult := ⟨8, frame 0x50 0xff 0xff 0x4e 0x0d⟩

/-- A temperature frame (`w = 4400`) with a wrong checksum byte. -/
def sample_bad_checksum : ReadResult := ⟨8, frame 0x42 0x11 0x30 0x84 0x0d⟩

/-- A CO2 frame (`w = 800`) with a correct checksum and terminator `0x0a`. -/
def sample_bad_terminator : ReadResult := ⟨8, frame 0x50 0x03 0x20 0x73 0x0a⟩

/-- A valid CO2 frame with `w = 3000`. -/
def sample_co2_3000 : ReadResult := ⟨8, frame 0x50 0x0b 0xb8 0x13 0x0d⟩

/-- A valid temperature frame with `w = 0x1130 = 4400`. -/
def sample_temp_4400 : ReadResult := ⟨8, frame 0x42 0x11 0x30 0x83 0x0d⟩

/-- A valid CO2 frame with `w = 5000`, above the bound of 3000. -/
def sample_co2_5000 : ReadResult := ⟨8, frame 0x50 0x13 0x88 0xeb 0x0d⟩

/-- A valid CO2 frame with `w = 800`. -/
def sample_co2_800 : ReadResult := ⟨8, frame 0x50 0x03 0x20 0x73 0x0d⟩

/-- A read that fails with `r = -1`. -/
def sample_read_error : ReadResult := ⟨-1, frame 0 0 0 0 0⟩

/-- A read that returns `r = 0`. -/
def sample_read_empty : ReadResult := ⟨0, frame 0 0 0 0 0⟩

/-- The end-to-end scenario of the specification: a bad terminator, a bad checksum, a valid
temperature frame (`w = 4400`), a CO2 frame with `w = 5000`, a valid CO2 frame (`w = 800`). -/
def scenario_reads : List ReadResult :=
  [sample_bad_terminator, sample_bad_checksum, sample_temp_4400, sample_co2_5000,
    sample_co2_800]

/-- The events of `device_loop` on the end-to-end scenario. -/
def scenario_events : List Event :=
  [.send_magic_table magic_table,
    .read_data magic_table, .fprintf (.unexpected_data 0x0a),
    .read_data magic_table, .fprintf (.checksum_error 0x83 0x84),
    .read_data magic_table,
    .read_data magic_table,
    .read_data magic_table,
    .fprintf (.data (printf_4f (decode_temperature 4400)) 800)]

/-- A valid frame with code `0x41`, neither temperature nor CO2. -/
def sample_other_code : ReadResult := ⟨8, frame 0x41 0x0c 0x10 0x5d 0x0d⟩

/-- The end-to-end scenario followed by two more read results, which are never read. -/
def scenario_reads_longer : List ReadResult :=
  scenario_reads ++ [sample_temp_4400, sample_read_error]

/-- A state in which both kinds have been observed. -/
def sample_state : LoopState := ⟨1, 1, 37 / 20, 800⟩

/-- A state in which only the temperature has been observed. -/
def sample_running_state : LoopState := ⟨1, 0, 37 / 20, 0⟩

/-! ## binary64 rounding and `%.4f` rendering -/

theorem div_round_even_error (n d : Nat) (hd : 0 < d) :
    |((div_round_even n d : Nat) : ℚ) - (n : ℚ) / d| ≤ 1 / 2 := by
  have hdq : (0 : ℚ) < d := by exact_mod_cast hd
  have hn : (n : ℚ) = d * ((n / d : Nat) : ℚ) + ((n % d : Nat) : ℚ) := by
    exact_mod_cast (Nat.div_add_mod n d).symm
  have hr : ((n % d : Nat) : ℚ) < d := by exact_mod_cast Nat.mod_lt n hd
  have hr0 : (0 : ℚ) ≤ ((n % d : Nat) : ℚ) := Nat.cast_nonneg _
  have hdiv : (n : ℚ) / d = ((n / d : Nat) : ℚ) + ((n % d : Nat) : ℚ) / d := by
    rw [hn]; field_simp; ring
  rw [hdiv, abs_le]
  unfold div_round_even
  split_ifs with h1 h2 h3
  · have h1' : 2 * ((n % d : Nat) : ℚ) < d := by exact_mod_cast h1
    have : ((n % d : Nat) : ℚ) / d < 1 / 2 := by
      rw [div_lt_iff₀ hdq]; linarith
    have h0 : 0 ≤ ((n % d : Nat) : ℚ) / d := div_nonneg hr0 hdq.le
    constructor <;> linarith
  · have h2' : (d : ℚ) < 2 * ((n % d : Nat) : ℚ) := by exact_mod_cast h2
    have : 1 / 2 < ((n % d : Nat) : ℚ) / d := by
      rw [lt_div_iff₀ hdq]; linarith
    have h1' : ((n % d : Nat) : ℚ) / d < 1 := by
      rw [div_lt_iff₀ hdq]; linarith
    push_cast
    constructor <;> linarith
  · have he : 2 * (n % d) = d := by omega
    have he' : 2 * ((n % d : Nat) : ℚ) = d := by exact_mod_cast he
    have : ((n % d : Nat) : ℚ) / d = 1 / 2 := by
      rw [div_eq_iff hdq.ne']; linarith
    constructor <;> linarith
  · have he : 2 * (n % d) = d := by omega
    have he' : 2 * ((n % d : Nat) : ℚ) = d := by exact_mod_cast he
    have : ((n % d : Nat) : ℚ) / d = 1 / 2 := by
      rw [div_eq_iff hdq.ne']; linarith
    push_cast
    constructor <;> linarith

theorem round_half_even_eq (y : ℚ) (t : Int) (h : |y - t| < 1 / 2) :
    round_half_even y = t := by
  rw [abs_lt] at h
  obtain ⟨h1, h2⟩ := h
  by_cases hy : (t : ℚ) ≤ y
  · have hf : ⌊y⌋ = t := by
      rw [Int.floor_eq_iff]
      constructor
      · exact hy
      · linarith
    unfold round_half_even
    rw [hf]
    rw [if_pos h2]
  · have hy' : y < t := not_le.mp hy
    have hf : ⌊y⌋ = t - 1 := by
      rw [Int.floor_eq_iff]
      push_cast
      constructor <;> linarith
    unfold round_half_even
    rw [hf]
    push_cast
    have h3 : ¬ (y - (t - 1) < 1 / 2) := by linarith
    have h4 : (1 : ℚ) / 2 < y - (t - 1) := by linarith
    simp only [h3, h4, if_false, if_true]
    ring

theorem bit_length_aux_zero (fuel : Nat) : bit_length_aux fuel 0 = 0 := by
  cases fuel <;> simp [bit_length_aux]

theorem bit_length_aux_bounds (fuel n : Nat) (h : n ≤ fuel) :
    n < 2 ^ bit_length_aux fuel n ∧ (n ≠ 0 → 2 ^ bit_length_aux fuel n ≤ 2 * n) := by
  induction fuel generalizing n with
  | zero =>
    have h0 : n = 0 := by omega
    subst h0
    simp [bit_length_aux]
  | succ fuel ih =>
    by_cases h0 : n = 0
    · subst h0
      simp [bit_length_aux]
    · obtain ⟨ih1, ih2⟩ := ih (n / 2) (by omega)
      simp only [bit_length_aux, h0, if_false, pow_succ]
      refine ⟨by omega, fun _ => ?_⟩
      by_cases h2 : n / 2 = 0
      · rw [h2, bit_length_aux_zero]
        simp
        omega
      · have := ih2 h2
        omega

theorem bit_length_bounds (n : Nat) :
    n < 2 ^ bit_length n ∧ (n ≠ 0 → 2 ^ bit_length n ≤ 2 * n) :=
  bit_length_aux_bounds n n le_rfl

theorem bit_length_le (a d K : Nat) (ha : a ≠ 0) (h : a < 2 ^ K * d) :
    bit_length a ≤ K + bit_length d := by
  have h1 := (bit_length_bounds a).2 ha
  have h2 := (bit_length_bounds d).1
  have h3 : 2 ^ K * d < 2 ^ K * 2 ^ bit_length d :=
    mul_lt_mul_of_pos_left h2 (by positivity)
  have h4 : 2 ^ bit_length a < 2 ^ (K + bit_length d + 1) := by
    rw [pow_succ, pow_add]
    omega
  have := (Nat.pow_lt_pow_iff_right (by norm_num : 1 < 2)).mp h4
  omega

theorem scaled_round_error (a d P Q : Nat) (hd : 0 < d) :
    |((div_round_even (a * 2 ^ P) (d * 2 ^ Q) : Nat) : ℚ) * 2 ^ Q / 2 ^ P - (a : ℚ) / d|
      ≤ 2 ^ Q / 2 ^ P / 2 := by
  have hdq : (0 : ℚ) < d := by exact_mod_cast hd
  have hP : (0 : ℚ) < 2 ^ P := by positivity
  have hQ : (0 : ℚ) < 2 ^ Q := by positivity
  have h := div_round_even_error (a * 2 ^ P) (d * 2 ^ Q) (by positivity)
  push_cast at h
  have heq : ((div_round_even (a * 2 ^ P) (d * 2 ^ Q) : Nat) : ℚ) * 2 ^ Q / 2 ^ P - (a : ℚ) / d
      = (2 ^ Q / 2 ^ P) *
        (((div_round_even (a * 2 ^ P) (d * 2 ^ Q) : Nat) : ℚ)
          - (a : ℚ) * 2 ^ P / (d * 2 ^ Q)) := by
    field_simp
    ring
  rw [heq, abs_mul, abs_of_pos (div_pos hQ hP)]
  calc 2 ^ Q / 2 ^ P * |((div_round_even (a * 2 ^ P) (d * 2 ^ Q) : Nat) : ℚ)
          - (a : ℚ) * 2 ^ P / (d * 2 ^ Q)|
      ≤ 2 ^ Q / 2 ^ P * (1 / 2) := by
        apply mul_le_mul_of_nonneg_left h (div_pos hQ hP).le
    _ = 2 ^ Q / 2 ^ P / 2 := by ring

theorem scale_bound (P Q K : Nat) (h : Q + 52 ≤ K + P) :
    (2 : ℚ) ^ Q / 2 ^ P / 2 ≤ 2 ^ K / 2 ^ 53 := by
  have hP : (0 : ℚ) < 2 ^ P := by positivity
  rw [div_div, div_le_div_iff₀ (by positivity) (by positivity)]
  have h1 : (2 : ℚ) ^ Q * 2 ^ 53 = 2 ^ (Q + 52) * 2 := by
    rw [pow_add]; ring
  have h2 : (2 : ℚ) ^ K * (2 ^ P * 2) = 2 ^ (K + P) * 2 := by
    rw [pow_add]; ring
  rw [h1, h2]
  have : (2 : ℚ) ^ (Q + 52) ≤ 2 ^ (K + P) := pow_le_pow_right₀ (by norm_num) h
  linarith

theorem binary64_error (n : Int) (d K : Nat) (hd : 0 < d) (hK : n.natAbs < 2 ^ K * d) :
    |(binary64 n d).toRat - (n : ℚ) / d| ≤ 2 ^ K / 2 ^ 53 := by
  by_cases hn : n = 0
  · subst hn
    simp [binary64, Double.toRat, Double.num]
    positivity
  · have ha : n.natAbs ≠ 0 := Int.natAbs_ne_zero.mpr hn
    have hbl := bit_length_le n.natAbs d K ha hK
    simp only [binary64, hn, if_false]
    generalize hs : (if n.natAbs * 2 ^ ((52 : Int) + (bit_length d : Int)
        - (bit_length n.natAbs : Int)).toNat
        < 2 ^ 52 * (d * 2 ^ (-((52 : Int) + (bit_length d : Int)
          - (bit_length n.natAbs : Int))).toNat) then
        (52 : Int) + (bit_length d : Int) - (bit_length n.natAbs : Int) + 1
      else (52 : Int) + (bit_length d : Int) - (bit_length n.natAbs : Int)) = s
    have hsb : (52 : Int) ≤ K + s := by
      rw [← hs]
      split_ifs <;> omega
    have hPQ : (-s).toNat + 52 ≤ K + s.toNat := by omega
    have hcore := scaled_round_error n.natAbs d s.toNat (-s).toNat hd
    have hbound := scale_bound s.toNat (-s).toNat K hPQ
    simp only [Double.toRat, Double.num, Double.den]
    rcases lt_or_gt_of_ne hn with hneg | hpos
    · have hsign : n.sign = -1 := Int.sign_eq_neg_one_of_neg hneg
      have hnq : (n : ℚ) = -(n.natAbs : ℚ) := by
        have h1 : (n.natAbs : Int) = -n := by omega
        rw [← Int.cast_natCast n.natAbs, h1]
        push_cast
        ring
      rw [hsign, hnq]
      push_cast
      have heq : (-1 * ((div_round_even (n.natAbs * 2 ^ s.toNat) (d * 2 ^ (-s).toNat) : Nat) : ℚ)
          * 2 ^ (-s).toNat) / 2 ^ s.toNat - -(n.natAbs : ℚ) / d
          = -(((div_round_even (n.natAbs * 2 ^ s.toNat) (d * 2 ^ (-s).toNat) : Nat) : ℚ)
            * 2 ^ (-s).toNat / 2 ^ s.toNat - (n.natAbs : ℚ) / d) := by ring
      rw [heq, abs_neg]
      exact hcore.trans hbound
    · have hsign : n.sign = 1 := Int.sign_eq_one_of_pos hpos
      have hnq : (n : ℚ) = (n.natAbs : ℚ) := by
        have h1 : (n.natAbs : Int) = n := by omega
        rw [← Int.cast_natCast n.natAbs, h1]
      rw [hsign, hnq]
      push_cast
      rw [one_mul]
      exact hcore.trans hbound

theorem binary64_error_rat (n : Int) (d K : Nat) (hd : 0 < d)
    (h : |(n : ℚ) / d| < 2 ^ K) :
    |(binary64 n d).toRat - (n : ℚ) / d| ≤ 2 ^ K / 2 ^ 53 := by
  apply binary64_error n d K hd
  have hdq : (0 : ℚ) < d := by exact_mod_cast hd
  rw [abs_div, abs_of_pos hdq, div_lt_iff₀ hdq] at h
  have hcast : ((n.natAbs : Nat) : ℚ) = |(n : ℚ)| := by
    rw [Nat.cast_natAbs, Int.cast_abs]
  have : ((n.natAbs : Nat) : ℚ) < ((2 ^ K * d : Nat) : ℚ) := by
    rw [hcast]; push_cast; exact h
  exact_mod_cast this

theorem Double.den_pos (x : Double) : 0 < x.den := by
  unfold Double.den; positivity

theorem Double.mul_error (x y : Double) (K : Nat) (h : |x.toRat * y.toRat| < 2 ^ K) :
    |(x.mul y).toRat - x.toRat * y.toRat| ≤ 2 ^ K / 2 ^ 53 := by
  have hx : (0 : ℚ) < x.den := by exact_mod_cast x.den_pos
  have hy : (0 : ℚ) < y.den := by exact_mod_cast y.den_pos
  have heq : ((x.num * y.num : Int) : ℚ) / ((x.den * y.den : Nat) : ℚ)
      = x.toRat * y.toRat := by
    simp only [Double.toRat]; push_cast; field_simp
  have := binary64_error_rat (x.num * y.num) (x.den * y.den) K
    (Nat.mul_pos x.den_pos y.den_pos) (by rw [heq]; exact h)
  rwa [heq] at this

theorem Double.sub_error (x y : Double) (K : Nat) (h : |x.toRat - y.toRat| < 2 ^ K) :
    |(x.sub y).toRat - (x.toRat - y.toRat)| ≤ 2 ^ K / 2 ^ 53 := by
  have hx : (0 : ℚ) < x.den := by exact_mod_cast x.den_pos
  have hy : (0 : ℚ) < y.den := by exact_mod_cast y.den_pos
  have heq : ((x.num * y.den - y.num * x.den : Int) : ℚ) / ((x.den * y.den : Nat) : ℚ)
      = x.toRat - y.toRat := by
    simp only [Double.toRat]; push_cast; field_simp; ring
  have := binary64_error_rat (x.num * y.den - y.num * x.den) (x.den * y.den) K
    (Nat.mul_pos x.den_pos y.den_pos) (by rw [heq]; exact h)
  rwa [heq] at this

theorem literal_0_0625 : (binary64 625 (10 ^ 4)).toRat = 1 / 16 := by
  have h : binary64 625 (10 ^ 4) = ⟨4503599627370496, 56⟩ := by decide
  have e1 : (-56 : Int).toNat = 0 := rfl
  have e2 : (56 : Int).toNat = 56 := rfl
  rw [h]
  simp only [Double.toRat, Double.num, Double.den, e1, e2]
  norm_num

theorem literal_273_15 :
    (binary64 27315 (10 ^ 2)).toRat = 4805305618032230 / 2 ^ 44 := by
  have h : binary64 27315 (10 ^ 2) = ⟨4805305618032230, 44⟩ := by decide
  have e1 : (-44 : Int).toNat = 0 := rfl
  have e2 : (44 : Int).toNat = 44 := rfl
  rw [h]
  simp only [Double.toRat, Double.num, Double.den, e1, e2]
  norm_num

theorem decode_temperature_error (w : Nat) (hw : w < 65536) :
    |decode_temperature w - ((w : ℚ) * 0.0625 - 273.15)| ≤ 1 / 10 ^ 11 := by
  have hmod : w % 65536 = w := Nat.mod_eq_of_lt hw
  have hwq : (w : ℚ) < 65536 := by exact_mod_cast hw
  have hw0 : (0 : ℚ) ≤ w := Nat.cast_nonneg w
  unfold decode_temperature
  rw [hmod]
  have h1 := binary64_error (w : Int) 1 16 one_pos (by simpa using hw)
  rw [abs_le] at h1
  have h1a : (((w : Int) : ℚ)) / ((1 : Nat) : ℚ) = (w : ℚ) := by simp
  rw [h1a] at h1
  generalize (binary64 (w : Int) 1) = x1 at h1 ⊢
  have hp : |x1.toRat * (binary64 625 (10 ^ 4)).toRat| < 2 ^ 13 := by
    rw [literal_0_0625, abs_lt]
    constructor <;> norm_num at h1 ⊢ <;> linarith [h1.1, h1.2]
  have h2 := Double.mul_error x1 (binary64 625 (10 ^ 4)) 13 hp
  rw [literal_0_0625] at h2 hp
  rw [abs_lt] at hp
  rw [abs_le] at h2
  generalize (x1.mul (binary64 625 (10 ^ 4))) = p at h2 ⊢
  have hs : |p.toRat - (binary64 27315 (10 ^ 2)).toRat| < 2 ^ 13 := by
    rw [literal_273_15, abs_lt]
    constructor <;> norm_num at h1 h2 hp ⊢ <;> linarith [h1.1, h1.2, h2.1, h2.2, hp.1, hp.2]
  have h3 := Double.sub_error p (binary64 27315 (10 ^ 2)) 13 hs
  rw [literal_273_15] at h3
  rw [abs_le] at h3 ⊢
  norm_num at h1 h2 h3 ⊢
  constructor <;> linarith [h1.1, h1.2, h2.1, h2.2, h3.1, h3.2]

theorem printf_4f_eq (x : ℚ) (t : Int) (h : |x * 10 ^ 4 - t| < 1 / 2) :
    printf_4f x = (t : ℚ) / 10 ^ 4 := by
  unfold printf_4f
  rw [round_half_even_eq _ t h]

theorem printf_4f_decode_temperature (w : Nat) (hw : w < 65536) :
    printf_4f (decode_temperature w) = (w : ℚ) * 0.0625 - 273.15 := by
  have h := decode_temperature_error w hw
  rw [abs_le] at h
  have ht : ((w : ℚ) * 0.0625 - 273.15) = ((625 * (w : Int) - 2731500 : Int) : ℚ) / 10 ^ 4 := by
    push_cast; norm_num; ring
  rw [ht]
  apply printf_4f_eq
  rw [abs_lt]
  push_cast
  norm_num at h ⊢
  constructor <;> linarith [h.1, h.2]

theorem printf_4f_zero : printf_4f 0.0 = 0 := by
  have := printf_4f_eq 0.0 0 (by norm_num)
  simpa using this

set_option maxRecDepth 8192 in
theorem decode_temperature_4400_exact :
    decode_temperature 4400 = 16272772091085 / 8796093022208 := by
  have h1 : binary64 ((4400 % 65536 : Nat) : Int) 1 = ⟨4837851162214400, 40⟩ := by decide
  have h2 : binary64 625 (10 ^ 4) = ⟨4503599627370496, 56⟩ := by decide
  have h3 : binary64 27315 (10 ^ 2) = ⟨4805305618032230, 44⟩ := by decide
  have h4 : Double.mul ⟨4837851162214400, 40⟩ ⟨4503599627370496, 56⟩ = ⟨4837851162214400, 44⟩ := by
    decide
  have h5 : Double.sub ⟨4837851162214400, 44⟩ ⟨4805305618032230, 44⟩ = ⟨8331659310635520, 52⟩ := by
    decide
  have e1 : (-52 : Int).toNat = 0 := rfl
  have e2 : (52 : Int).toNat = 52 := rfl
  unfold decode_temperature
  rw [h1, h2, h3, h4, h5]
  simp only [Double.toRat, Double.num, Double.den, e1, e2]
  norm_num

/-! ## One pass through the loop body -/

theorem loop_body_brk (s : LoopState) (rd : ReadResult) :
    (loop_body s rd).brk = true ↔ rd.r ≤ 0 := by
  simp only [loop_body]
  split_ifs <;> simp_all

theorem loop_body_failed (s : LoopState) (rd : ReadResult) (h : rd.r ≤ 0) :
    loop_body s rd = ⟨s, [.read_error], true⟩ := by
  simp [loop_body, h]

theorem loop_body_valid (s : LoopState) (rd : ReadResult) (hr : 0 < rd.r)
    (hv : valid_frame rd.result) :
    loop_body s rd = ⟨dispatch s (rd.result 0).val (raw_value rd.result), [], false⟩ := by
  obtain ⟨h4, h3⟩ := hv
  have hr' : ¬ rd.r ≤ 0 := not_le.mpr hr
  simp [loop_body, hr', h4, h3]

theorem loop_body_invalid (s : LoopState) (rd : ReadResult) (hr : 0 < rd.r)
    (hv : ¬ valid_frame rd.result) :
    (loop_body s rd).state = s ∧ (loop_body s rd).brk = false ∧
      ∃ rec, (loop_body s rd).out = [rec] ∧ rec.is_frame_report = true := by
  have hr' : ¬ rd.r ≤ 0 := not_le.mpr hr
  unfold loop_body
  rw [if_neg hr']
  by_cases h4 : (rd.result 4).val = 0x0d
  · have h3 : ¬ ((rd.result 0).val + (rd.result 1).val + (rd.result 2).val) % 256
        = (rd.result 3).val := fun h => hv ⟨h4, h.symm⟩
    simp [h4, h3, Record.is_frame_report]
  · simp [h4, Record.is_frame_report]

/-! ## Events -/

@[simp] theorem reads_performed_append (l₁ l₂ : List Event) :
    reads_performed (l₁ ++ l₂) = reads_performed l₁ + reads_performed l₂ := by
  induction l₁ with
  | nil => simp [reads_performed]
  | cons e l ih =>
    cases e
    · simp [reads_performed, ih]
    · simp [reads_performed, ih]; omega
    · simp [reads_performed, ih]

@[simp] theorem reads_performed_fprintf (out : List Record) :
    reads_performed (out.map .fprintf) = 0 := by
  induction out with
  | nil => rfl
  | cons rec l ih => simpa [reads_performed] using ih

@[simp] theorem printed_append (l₁ l₂ : List Event) :
    printed (l₁ ++ l₂) = printed l₁ ++ printed l₂ := by
  induction l₁ with
  | nil => simp [printed]
  | cons e l ih => cases e <;> simp [printed, ih]

@[simp] theorem printed_fprintf (out : List Record) :
    printed (out.map .fprintf) = out := by
  induction out with
  | nil => rfl
  | cons rec l ih => simpa [printed] using ih

@[simp] theorem reads_performed_iteration (mt : co2mon_data_t) (it : Iteration) :
    reads_performed (iteration_events mt it) = 1 := by
  simp [iteration_events, reads_performed]

@[simp] theorem printed_iteration (mt : co2mon_data_t) (it : Iteration) :
    printed (iteration_events mt it) = it.out := by
  simp [iteration_events, printed]

/-! ## Unfolding the loop -/

theorem while_loop_done (mt : co2mon_data_t) (s : LoopState) (reads : List ReadResult)
    (h : loop_cond s = false) : while_loop mt s reads = some (s, []) := by
  cases reads <;> simp [while_loop, h]

theorem while_loop_nil (mt : co2mon_data_t) (s : LoopState) (h : loop_cond s = true) :
    while_loop mt s [] = none := by
  simp [while_loop, h]

theorem while_loop_failed (mt : co2mon_data_t) (s : LoopState) (rd : ReadResult)
    (rest : List ReadResult) (h : loop_cond s = true) (hr : rd.r ≤ 0) :
    while_loop mt s (rd :: rest) = some (s, [.read_data mt, .fprintf .read_error]) := by
  simp [while_loop, h, loop_body_failed s rd hr, iteration_events]

theorem while_loop_next (mt : co2mon_data_t) (s : LoopState) (rd : ReadResult)
    (rest : List ReadResult) (h : loop_cond s = true) (hr : 0 < rd.r) :
    while_loop mt s (rd :: rest) =
      (while_loop mt (loop_body s rd).state rest).map fun p =>
        (p.1, iteration_events mt (loop_body s rd) ++ p.2) := by
  have hb : (loop_body s rd).brk = false := by
    cases hbrk : (loop_body s rd).brk
    · rfl
    · exact absurd ((loop_body_brk s rd).mp hbrk) (not_le.mpr hr)
  simp only [while_loop, h, hb, if_true]
  cases while_loop mt (loop_body s rd).state rest <;> simp

/-! ## The state along a run -/

theorem loop_cond_false_iff (s : LoopState) :
    loop_cond s = false ↔ s.has_temp ≠ 0 ∧ s.has_co2 ≠ 0 := by
  simp only [loop_cond, lnot]
  by_cases h1 : s.has_temp = 0 <;> by_cases h2 : s.has_co2 = 0 <;> simp [h1, h2] <;> decide

theorem loop_body_state (s : LoopState) (rd : ReadResult) :
    (loop_body s rd).state =
      if accepted_temp rd then
        { s with temperature := decode_temperature (raw_value rd.result), has_temp := 1 }
      else if accepted_co2 rd then
        { s with has_co2 := 1, co2 := (raw_value rd.result : Int) }
      else s := by
  by_cases hr : 0 < rd.r
  · by_cases hv : valid_frame rd.result
    · rw [loop_body_valid s rd hr hv]
      simp only [accepted_temp, accepted_co2, hr, hv, true_and, dispatch, CODE_TAMB, CODE_CNTR]
      by_cases h42 : (rd.result 0).val = 0x42
      · simp [h42]
      · by_cases h50 : (rd.result 0).val = 0x50
        · by_cases hw : 3000 < raw_value rd.result
          · have hw' : ¬ raw_value rd.result ≤ 3000 := not_le.mpr hw
            simp [h50, hw, hw']
          · have hw' : raw_value rd.result ≤ 3000 := not_lt.mp hw
            simp [h50, hw, hw']
        · simp [h42, h50]
    · rw [(loop_body_invalid s rd hr hv).1]
      simp [accepted_temp, accepted_co2, hv]
  · rw [loop_body_failed s rd (not_lt.mp hr)]
    simp [accepted_temp, accepted_co2, hr]

theorem not_accepted_both (rd : ReadResult) : ¬ (accepted_temp rd ∧ accepted_co2 rd) := by
  rintro ⟨⟨-, -, h42⟩, -, -, h50, -⟩
  rw [h42] at h50
  exact absurd h50 (by decide)

theorem run_frames_cons (s : LoopState) (rd : ReadResult) (frames : List ReadResult) :
    run_frames s (rd :: frames) = run_frames (loop_body s rd).state frames := rfl

theorem run_frames_has_temp (frames : List ReadResult) (s : LoopState) :
    (run_frames s frames).has_temp ≠ 0 ↔
      (s.has_temp ≠ 0 ∨ ∃ rd ∈ frames, accepted_temp rd) := by
  induction frames generalizing s with
  | nil => simp [run_frames]
  | cons rd frames ih =>
    rw [run_frames_cons, ih, loop_body_state]
    by_cases ht : accepted_temp rd
    · simp [ht]
    · by_cases hc : accepted_co2 rd <;> simp [ht, hc]

theorem run_frames_has_co2 (frames : List ReadResult) (s : LoopState) :
    (run_frames s frames).has_co2 ≠ 0 ↔
      (s.has_co2 ≠ 0 ∨ ∃ rd ∈ frames, accepted_co2 rd) := by
  induction frames generalizing s with
  | nil => simp [run_frames]
  | cons rd frames ih =>
    rw [run_frames_cons, ih, loop_body_state]
    by_cases ht : accepted_temp rd
    · have hc : ¬ accepted_co2 rd := fun hc => not_accepted_both rd ⟨ht, hc⟩
      simp [ht, hc]
    · by_cases hc : accepted_co2 rd <;> simp [ht, hc]

theorem last_accepted_temp_cons (rd : ReadResult) (frames : List ReadResult) :
    last_accepted_temp (rd :: frames) =
      (last_accepted_temp frames).or
        (if accepted_temp rd then some (raw_value rd.result) else none) := by
  unfold last_accepted_temp
  by_cases ht : accepted_temp rd
  · simp only [List.filter_cons, ht, decide_True, if_true, List.getLast?_cons]
    generalize (List.filter (fun rd => decide (accepted_temp rd)) frames).getLast? = o
    cases o <;> rfl
  · simp only [List.filter_cons, ht, decide_False, if_false, Bool.false_eq_true]
    generalize (List.filter (fun rd => decide (accepted_temp rd)) frames).getLast? = o
    cases o <;> rfl

theorem last_accepted_co2_cons (rd : ReadResult) (frames : List ReadResult) :
    last_accepted_co2 (rd :: frames) =
      (last_accepted_co2 frames).or
        (if accepted_co2 rd then some (raw_value rd.result) else none) := by
  unfold last_accepted_co2
  by_cases ht : accepted_co2 rd
  · simp only [List.filter_cons, ht, decide_True, if_true, List.getLast?_cons]
    generalize (List.filter (fun rd => decide (accepted_co2 rd)) frames).getLast? = o
    cases o <;> rfl
  · simp only [List.filter_cons, ht, decide_False, if_false, Bool.false_eq_true]
    generalize (List.filter (fun rd => decide (accepted_co2 rd)) frames).getLast? = o
    cases o <;> rfl

theorem run_frames_temperature (frames : List ReadResult) (s : LoopState) :
    (run_frames s frames).temperature =
      ((last_accepted_temp frames).map decode_temperature).getD s.temperature := by
  induction frames generalizing s with
  | nil => simp [run_frames, last_accepted_temp]
  | cons rd frames ih =>
    rw [run_frames_cons, ih, last_accepted_temp_cons, loop_body_state]
    cases last_accepted_temp frames with
    | some w => simp
    | none =>
      by_cases ht : accepted_temp rd
      · simp [ht]
      · by_cases hc : accepted_co2 rd <;> simp [ht, hc]

theorem run_frames_co2 (frames : List ReadResult) (s : LoopState) :
    (run_frames s frames).co2 =
      ((last_accepted_co2 frames).map fun w => (w : Int)).getD s.co2 := by
  induction frames generalizing s with
  | nil => simp [run_frames, last_accepted_co2]
  | cons rd frames ih =>
    rw [run_frames_cons, ih, last_accepted_co2_cons, loop_body_state]
    cases last_accepted_co2 frames with
    | some w => simp
    | none =>
      by_cases ht : accepted_temp rd
      · have hc : ¬ accepted_co2 rd := fun hc => not_accepted_both rd ⟨ht, hc⟩
        simp [ht, hc]
      · by_cases hc : accepted_co2 rd <;> simp [ht, hc]

theorem last_accepted_temp_isSome (frames : List ReadResult)
    (h : ∃ rd ∈ frames, accepted_temp rd) :
    ∃ w, last_accepted_temp frames = some w := by
  obtain ⟨rd, hmem, hrd⟩ := h
  have hne : frames.filter (fun rd => decide (accepted_temp rd)) ≠ [] :=
    List.ne_nil_of_mem (List.mem_filter.mpr ⟨hmem, by simpa using hrd⟩)
  unfold last_accepted_temp
  cases hl : (frames.filter fun rd => decide (accepted_temp rd)).getLast? with
  | none => exact absurd (List.getLast?_eq_none_iff.mp hl) hne
  | some x => exact ⟨raw_value x.result, rfl⟩

theorem last_accepted_co2_isSome (frames : List ReadResult)
    (h : ∃ rd ∈ frames, accepted_co2 rd) :
    ∃ w, last_accepted_co2 frames = some w := by
  obtain ⟨rd, hmem, hrd⟩ := h
  have hne : frames.filter (fun rd => decide (accepted_co2 rd)) ≠ [] :=
    List.ne_nil_of_mem (List.mem_filter.mpr ⟨hmem, by simpa using hrd⟩)
  unfold last_accepted_co2
  cases hl : (frames.filter fun rd => decide (accepted_co2 rd)).getLast? with
  | none => exact absurd (List.getLast?_eq_none_iff.mp hl) hne
  | some x => exact ⟨raw_value x.result, rfl⟩

/-! ## Runs of the loop -/

theorem step_has_temp (s : LoopState) (rd : ReadResult) :
    (loop_body s rd).state.has_temp ≠ 0 ↔ (s.has_temp ≠ 0 ∨ accepted_temp rd) := by
  simpa [run_frames] using run_frames_has_temp [rd] s

theorem step_has_co2 (s : LoopState) (rd : ReadResult) :
    (loop_body s rd).state.has_co2 ≠ 0 ↔ (s.has_co2 ≠ 0 ∨ accepted_co2 rd) := by
  simpa [run_frames] using run_frames_has_co2 [rd] s

theorem while_loop_terminates (mt : co2mon_data_t) (reads : List ReadResult) (s : LoopState)
    (h : (∃ rd ∈ reads, rd.r ≤ 0) ∨
      ((s.has_temp ≠ 0 ∨ ∃ rd ∈ reads, accepted_temp rd) ∧
        (s.has_co2 ≠ 0 ∨ ∃ rd ∈ reads, accepted_co2 rd))) :
    ∃ res, while_loop mt s reads = some res := by
  induction reads generalizing s with
  | nil =>
    refine ⟨(s, []), while_loop_done mt s [] ((loop_cond_false_iff s).mpr ?_)⟩
    simpa using h
  | cons rd rest ih =>
    cases hc : loop_cond s with
    | false => exact ⟨(s, []), while_loop_done mt s _ hc⟩
    | true =>
      by_cases hr : rd.r ≤ 0
      · exact ⟨_, while_loop_failed mt s rd rest hc hr⟩
      · have hpos : 0 < rd.r := not_le.mp hr
        have hrest : (∃ rd' ∈ rest, rd'.r ≤ 0) ∨
            (((loop_body s rd).state.has_temp ≠ 0 ∨ ∃ rd' ∈ rest, accepted_temp rd') ∧
              ((loop_body s rd).state.has_co2 ≠ 0 ∨ ∃ rd' ∈ rest, accepted_co2 rd')) := by
          rw [step_has_temp, step_has_co2]
          rcases h with ⟨rd', hmem, hle⟩ | ⟨ht, hco⟩
          · left
            rcases List.mem_cons.mp hmem with heq | hmem'
            · subst heq; exact absurd hle hr
            · exact ⟨rd', hmem', hle⟩
          · right
            constructor
            · rcases ht with ht | ⟨rd', hmem, hacc⟩
              · exact Or.inl (Or.inl ht)
              · rcases List.mem_cons.mp hmem with heq | hmem'
                · subst heq; exact Or.inl (Or.inr hacc)
                · exact Or.inr ⟨rd', hmem', hacc⟩
            · rcases hco with hco | ⟨rd', hmem, hacc⟩
              · exact Or.inl (Or.inl hco)
              · rcases List.mem_cons.mp hmem with heq | hmem'
                · subst heq; exact Or.inl (Or.inr hacc)
                · exact Or.inr ⟨rd', hmem', hacc⟩
        obtain ⟨res, hres⟩ := ih (loop_body s rd).state hrest
        exact ⟨_, by rw [while_loop_next mt s rd rest hc hpos, hres]; rfl⟩

theorem loop_body_out (s : LoopState) (rd : ReadResult) (hr : 0 < rd.r) :
    (∀ rec ∈ (loop_body s rd).out, rec.is_frame_report = true) ∧
    (loop_body s rd).out.length = if reported_reject rd then 1 else 0 := by
  by_cases hv : valid_frame rd.result
  · rw [loop_body_valid s rd hr hv]
    simp [reported_reject, hv]
  · obtain ⟨-, -, rec, hout, hrep⟩ := loop_body_invalid s rd hr hv
    rw [hout]
    simp [reported_reject, hv, hr, hrep]

theorem while_loop_run (mt : co2mon_data_t) (reads : List ReadResult) (s s' : LoopState)
    (ev : List Event) (hrun : while_loop mt s reads = some (s', ev))
    (hok : ∀ rd ∈ reads.take (reads_performed ev), 0 < rd.r) :
    s' = run_frames s (reads.take (reads_performed ev)) ∧
    loop_cond s' = false ∧
    (∀ rec ∈ printed ev, rec.is_frame_report = true) ∧
    (printed ev).length
      = (reads.take (reads_performed ev)).countP fun rd => decide (reported_reject rd) := by
  induction reads generalizing s s' ev with
  | nil =>
    cases hc : loop_cond s with
    | true => rw [while_loop_nil mt s hc] at hrun; cases hrun
    | false =>
      rw [while_loop_done mt s [] hc] at hrun
      cases hrun
      simp [run_frames, hc, printed]
  | cons rd rest ih =>
    cases hc : loop_cond s with
    | false =>
      rw [while_loop_done mt s _ hc] at hrun
      cases hrun
      simp [run_frames, hc, printed, reads_performed]
    | true =>
      by_cases hr : rd.r ≤ 0
      · rw [while_loop_failed mt s rd rest hc hr] at hrun
        cases hrun
        exact absurd (hok rd (by simp [reads_performed])) (not_lt.mpr hr)
      · have hpos : 0 < rd.r := not_le.mp hr
        rw [while_loop_next mt s rd rest hc hpos] at hrun
        cases hw : while_loop mt (loop_body s rd).state rest with
        | none => rw [hw] at hrun; cases hrun
        | some q =>
          obtain ⟨s'', ev'⟩ := q
          rw [hw] at hrun
          cases hrun
          have hn : reads_performed (iteration_events mt (loop_body s rd) ++ ev')
              = reads_performed ev' + 1 := by
            simp; omega
          rw [hn, List.take_succ_cons] at hok ⊢
          obtain ⟨h1, h2, h3, h4⟩ :=
            ih (loop_body s rd).state _ ev' hw fun x hx => hok x (List.mem_cons_of_mem _ hx)
          obtain ⟨ho1, ho2⟩ := loop_body_out s rd hpos
          refine ⟨by rw [run_frames_cons]; exact h1, h2, ?_, ?_⟩
          · intro rec hrec
            rw [printed_append, printed_iteration] at hrec
            rcases List.mem_append.mp hrec with hrec | hrec
            · exact ho1 rec hrec
            · exact h3 rec hrec
          · rw [printed_append, printed_iteration, List.length_append, ho2, h4,
              List.countP_cons]
            by_cases hrej : reported_reject rd
            · simp [hrej]; omega
            · simp [hrej]

theorem device_loop_of_sent (send_ret : Int) (h : send_ret ≠ 0) (reads : List ReadResult) :
    device_loop send_ret reads =
      (while_loop magic_table ⟨0, 0, 0.0, 0⟩ reads).map fun p =>
        .send_magic_table magic_table :: p.2 ++
          [.fprintf (.data (printf_4f p.1.temperature) p.1.co2)] := by
  simp only [device_loop, lnot, h, if_false, ne_eq, not_true_eq_false]
  cases while_loop magic_table ⟨0, 0, 0.0, 0⟩ reads <;> rfl

theorem device_loop_of_not_sent (reads : List ReadResult) :
    device_loop 0 reads
      = some [.send_magic_table magic_table, .fprintf .magic_table_error] := by
  simp [device_loop, lnot]

theorem printf_4f_decode_4400 : printf_4f (decode_temperature 4400) = 1.85 := by
  rw [printf_4f_decode_temperature 4400 (by norm_num)]
  norm_num

theorem last_accepted_temp_lt (frames : List ReadResult) (w : Nat)
    (h : last_accepted_temp frames = some w) : w < 65536 := by
  unfold last_accepted_temp at h
  obtain ⟨rd, -, hrd⟩ := Option.map_eq_some'.mp h
  rw [← hrd]
  exact Nat.mod_lt _ (by norm_num)

theorem frame_report_not_success (rec : Record) (h : rec.is_frame_report = true) :
    rec.success = false := by
  cases rec <;> simp_all [Record.is_frame_report, Record.success]

/-! ## Session outcomes -/

/-- C1 (failing input): after a successful key write, a first read that returns -1 makes
`device_loop` print the read-error record and then the success record with temperature 0
and co2 0, although no temperature frame and no CO2 frame was accepted. -/
theorem success_record_without_accepted_frames :
    device_loop 1 [sample_read_error]
      = some [.send_magic_table magic_table, .read_data magic_table,
          .fprintf .read_error, .fprintf (.data 0 0)] ∧
    ¬ accepted_temp sample_read_error ∧ ¬ accepted_co2 sample_read_error := by
  refine ⟨?_, by decide, by decide⟩
  have h : device_loop 1 [sample_read_error]
      = some [.send_magic_table magic_table, .read_data magic_table,
          .fprintf .read_error, .fprintf (.data (printf_4f 0.0) 0)] := rfl
  rw [h, printf_4f_zero]

/-- C2 (failing input): after a successful key write and one accepted temperature frame
(`w = 4400`), a read that returns 0 makes `device_loop` print the read-error record and then
a success record carrying the temperature 1.85 gathered so far and co2 0. -/
theorem read_error_prints_success_record :
    device_loop 1 [sample_temp_4400, sample_read_empty]
      = some [.send_magic_table magic_table, .read_data magic_table, .read_data magic_table,
          .fprintf .read_error, .fprintf (.data 1.85 0)] := by
  have h : device_loop 1 [sample_temp_4400, sample_read_empty]
      = some [.send_magic_table magic_table, .read_data magic_table, .read_data magic_table,
          .fprintf .read_error, .fprintf (.data (printf_4f (decode_temperature 4400)) 0)] := rfl
  rw [h, printf_4f_decode_4400]

/-- C3 (counterexample): with a successful key write and no read error, a session whose
reads give a bad-terminator frame, a bad-checksum frame, a temperature frame and a CO2 frame
prints three records, not one: one report for each of the two rejected frames and the
success record. -/
theorem rejected_frames_print_records :
    ∃ ev, device_loop 1
        [sample_bad_terminator, sample_bad_checksum, sample_temp_4400, sample_co2_800] = some ev ∧
      printed ev = [.unexpected_data 0x0a, .checksum_error 0x83 0x84, .data 1.85 800] ∧
      ¬ ∃ rec, printed ev = [rec] := by
  refine ⟨[.send_magic_table magic_table,
    .read_data magic_table, .fprintf (.unexpected_data 0x0a),
    .read_data magic_table, .fprintf (.checksum_error 0x83 0x84),
    .read_data magic_table, .read_data magic_table,
    .fprintf (.data (printf_4f (decode_temperature 4400)) 800)], rfl, ?_, ?_⟩
  · simp [printed, printf_4f_decode_4400]
  · simp [printed]

/-- C3 (amended): in every session that ends without a failed read, `device_loop` prints one
report record for each frame it read that has a bad terminator or a bad checksum (none for
an out-of-range CO2 value or an unknown code), followed by exactly one final record: the
key-exchange failure record when the key write returned 0, the success record otherwise. -/
theorem printed_records_shape (send_ret : Int) (reads : List ReadResult) (ev : List Event)
    (hev : device_loop send_ret reads = some ev)
    (hok : ∀ rd ∈ frames_read reads ev, 0 < rd.r) :
    ∃ reports final, printed ev = reports ++ [final] ∧
      (∀ rec ∈ reports, rec.is_frame_report = true) ∧
      reports.length
        = (frames_read reads ev).countP (fun rd => decide (reported_reject rd)) ∧
      final.is_frame_report = false ∧
      (send_ret = 0 → final = .magic_table_error) ∧
      (send_ret ≠ 0 → final.success = true) := by
  by_cases hs : send_ret = 0
  · subst hs
    rw [device_loop_of_not_sent] at hev
    cases hev
    exact ⟨[], .magic_table_error, by simp [printed], by simp,
      by simp [frames_read, reads_performed], rfl, fun _ => rfl, fun h => absurd rfl h⟩
  · rw [device_loop_of_sent send_ret hs] at hev
    cases hw : while_loop magic_table ⟨0, 0, 0.0, 0⟩ reads with
    | none => rw [hw] at hev; cases hev
    | some q =>
      obtain ⟨s, ev'⟩ := q
      rw [hw] at hev
      cases hev
      have hn : reads_performed (.send_magic_table magic_table :: ev' ++
          [.fprintf (.data (printf_4f s.temperature) s.co2)]) = reads_performed ev' := by
        simp [reads_performed]
      rw [frames_read, hn] at hok ⊢
      obtain ⟨-, -, h3, h4⟩ := while_loop_run magic_table reads _ s ev' hw hok
      refine ⟨printed ev', .data (printf_4f s.temperature) s.co2, ?_, h3, h4, rfl,
        fun h => absurd h hs, fun _ => rfl⟩
      simp [printed]

/-- Witness of C3 (amended): on the end-to-end scenario, which has two frames rejected with
a report and one CO2 frame rejected silently, three records are printed, the last one being
the success record. -/
theorem printed_records_shape_witness :
    device_loop 1 scenario_reads = some scenario_events ∧
    ∃ reports final, printed scenario_events = reports ++ [final] ∧
      (∀ rec ∈ reports, rec.is_frame_report = true) ∧
      reports.length = 2 ∧
      final.success = true := by
  have hev : device_loop 1 scenario_reads = some scenario_events := rfl
  have hok : ∀ rd ∈ frames_read scenario_reads scenario_events, 0 < rd.r := by decide
  obtain ⟨reports, final, h1, h2, h3, -, -, h6⟩ :=
    printed_records_shape 1 scenario_reads scenario_events hev hok
  have hcount : (frames_read scenario_reads scenario_events).countP
      (fun rd => decide (reported_reject rd)) = 2 := by decide
  exact ⟨hev, reports, final, h1, h2, h3.trans hcount, h6 (by decide)⟩

/-- C4: after a successful key write, on reads that all succeed and contain an accepted
temperature frame and an accepted CO2 frame, `device_loop` finishes, and the one success
record it prints (the last record, all earlier ones being failure reports) carries
`w * 0.0625 - 273.15` for the `w` of the last accepted temperature frame it read and the `w`
of the last accepted CO2 frame it read; rejected frames play no part in either value. -/
theorem reported_values_are_last_accepted (send_ret : Int) (reads : List ReadResult)
    (hsend : send_ret ≠ 0) (hok : ∀ rd ∈ reads, 0 < rd.r)
    (ht : ∃ rd ∈ reads, accepted_temp rd) (hc : ∃ rd ∈ reads, accepted_co2 rd) :
    ∃ ev wt wc reports, device_loop send_ret reads = some ev ∧
      last_accepted_temp (frames_read reads ev) = some wt ∧
      last_accepted_co2 (frames_read reads ev) = some wc ∧
      printed ev = reports ++ [.data ((wt : ℚ) * 0.0625 - 273.15) (wc : Int)] ∧
      ∀ rec ∈ reports, rec.success = false := by
  obtain ⟨⟨s, ev'⟩, hw⟩ := while_loop_terminates magic_table reads ⟨0, 0, 0.0, 0⟩
    (Or.inr ⟨Or.inr ht, Or.inr hc⟩)
  have hok' : ∀ rd ∈ reads.take (reads_performed ev'), 0 < rd.r :=
    fun rd hrd => hok rd (List.mem_of_mem_take hrd)
  obtain ⟨hs, hcond, hrep, -⟩ := while_loop_run magic_table reads _ s ev' hw hok'
  obtain ⟨hst, hsc⟩ := (loop_cond_false_iff s).mp hcond
  rw [hs, run_frames_has_temp] at hst
  rw [hs, run_frames_has_co2] at hsc
  obtain ⟨wt, hwt⟩ := last_accepted_temp_isSome _ (hst.resolve_left fun h => h rfl)
  obtain ⟨wc, hwc⟩ := last_accepted_co2_isSome _ (hsc.resolve_left fun h => h rfl)
  have htemp : printf_4f s.temperature = (wt : ℚ) * 0.0625 - 273.15 := by
    have hdec : s.temperature = decode_temperature wt := by
      rw [hs, run_frames_temperature, hwt]; rfl
    rw [hdec, printf_4f_decode_temperature wt (last_accepted_temp_lt _ wt hwt)]
  have hco2 : s.co2 = (wc : Int) := by
    rw [hs, run_frames_co2, hwc]; rfl
  have hn : reads_performed (.send_magic_table magic_table :: ev' ++
      [.fprintf (.data (printf_4f s.temperature) s.co2)]) = reads_performed ev' := by
    simp [reads_performed]
  refine ⟨.send_magic_table magic_table :: ev' ++
      [.fprintf (.data (printf_4f s.temperature) s.co2)],
    wt, wc, printed ev', ?_, ?_, ?_, ?_,
    fun rec hrec => frame_report_not_success rec (hrep rec hrec)⟩
  · rw [device_loop_of_sent send_ret hsend, hw]; rfl
  · rw [frames_read, hn]; exact hwt
  · rw [frames_read, hn]; exact hwc
  · simp [printed, htemp, hco2]

/-- Witness of C4: the end-to-end scenario of the specification (bad terminator, bad
checksum, temperature `w = 4400`, CO2 `w = 5000`, CO2 `w = 800`, after a successful key
write) ends with the success record carrying temperature 1.85 and co2 800. -/
theorem reported_values_are_last_accepted_witness :
    (∀ rd ∈ scenario_reads, 0 < rd.r) ∧
    (∃ rd ∈ scenario_reads, accepted_temp rd) ∧
    (∃ rd ∈ scenario_reads, accepted_co2 rd) ∧
    ∃ ev reports, device_loop 1 scenario_reads = some ev ∧
      printed ev = reports ++ [.data 1.85 800] ∧
      ∀ rec ∈ reports, rec.success = false := by
  have hok : ∀ rd ∈ scenario_reads, 0 < rd.r := by decide
  have ht : ∃ rd ∈ scenario_reads, accepted_temp rd := by decide
  have hc : ∃ rd ∈ scenario_reads, accepted_co2 rd := by decide
  obtain ⟨ev, wt, wc, reports, hev, hwt, hwc, hpr, hrep⟩ :=
    reported_values_are_last_accepted 1 scenario_reads (by decide) hok ht hc
  have hev' : device_loop 1 scenario_reads = some scenario_events := rfl
  have heq : ev = scenario_events := Option.some.inj (hev.symm.trans hev')
  subst heq
  have h1 : last_accepted_temp (frames_read scenario_reads scenario_events) = some 4400 := by
    decide
  have h2 : last_accepted_co2 (frames_read scenario_reads scenario_events) = some 800 := by
    decide
  have e1 : wt = 4400 := Option.some.inj (hwt.symm.trans h1)
  have e2 : wc = 800 := Option.some.inj (hwc.symm.trans h2)
  subst e1 e2
  refine ⟨hok, ht, hc, scenario_events, reports, hev, ?_, hrep⟩
  rw [hpr]
  norm_num

/-! ## Frame validation and frame effects -/

/-- C5: a successfully read frame reaches the switch on its code and raw value exactly when
byte 4 is `0x0d` and byte 3 equals the sum of bytes 0, 1 and 2 modulo 256; a frame failing
either check does not leave the loop: with the loop running, the run goes on from the same
state with the remaining reads, so that another read is made. -/
theorem frame_dispatched_iff_valid (s : LoopState) (rd : ReadResult) (hr : 0 < rd.r) :
    (loop_body s rd = ⟨dispatch s (rd.result 0).val (raw_value rd.result), [], false⟩ ↔
        ((rd.result 4).val = 0x0d ∧
          (rd.result 3).val
            = ((rd.result 0).val + (rd.result 1).val + (rd.result 2).val) % 256)) ∧
    (¬ ((rd.result 4).val = 0x0d ∧
          (rd.result 3).val
            = ((rd.result 0).val + (rd.result 1).val + (rd.result 2).val) % 256) →
      loop_cond s = true →
        (loop_body s rd).brk = false ∧
        while_loop magic_table s [rd] = none ∧
        (∀ rest, while_loop magic_table s (rd :: rest) =
          (while_loop magic_table s rest).map fun p =>
            (p.1, iteration_events magic_table (loop_body s rd) ++ p.2)) ∧
        (∀ rd2 rest res, while_loop magic_table s (rd :: rd2 :: rest) = some res →
          2 ≤ reads_performed res.2)) := by
  refine ⟨⟨fun h => ?_, fun h => loop_body_valid s rd hr h⟩, fun hv hc => ?_⟩
  · by_contra hv
    obtain ⟨-, -, rec, hout, -⟩ := loop_body_invalid s rd hr hv
    rw [h] at hout
    simp at hout
  · obtain ⟨hst, hb, -⟩ := loop_body_invalid s rd hr hv
    have hnext : ∀ rest, while_loop magic_table s (rd :: rest) =
        (while_loop magic_table s rest).map fun p =>
          (p.1, iteration_events magic_table (loop_body s rd) ++ p.2) := by
      intro rest
      have := while_loop_next magic_table s rd rest hc hr
      rwa [hst] at this
    refine ⟨hb, ?_, hnext, ?_⟩
    · rw [hnext, while_loop_nil _ _ hc]; rfl
    · intro rd2 rest res hres
      rw [hnext] at hres
      by_cases hr2 : rd2.r ≤ 0
      · rw [while_loop_failed _ _ _ _ hc hr2] at hres
        simp at hres
        subst hres
        simp [reads_performed]
      · rw [while_loop_next _ _ _ _ hc (not_le.mp hr2)] at hres
        cases hw : while_loop magic_table (loop_body s rd2).state rest with
        | none => simp [hw] at hres
        | some q =>
          simp [hw] at hres
          subst hres
          simp
          omega

/-- Witness of C5: the frame `50 ff ff 4e 0d`, whose three-byte sum is 590, reaches the
switch because `590 % 256 = 0x4e`. -/
theorem frame_dispatched_iff_valid_witness :
    (0 : Int) < sample_wrapping_frame.r ∧
    loop_body sample_running_state sample_wrapping_frame
      = ⟨dispatch sample_running_state 0x50 65535, [], false⟩ :=
  ⟨by decide,
   ((frame_dispatched_iff_valid sample_running_state sample_wrapping_frame (by decide)).1).mpr
     ⟨by decide, by decide⟩⟩

/-- C6: a frame whose byte 3 differs from the sum of bytes 0, 1 and 2 modulo 256 leaves
`has_temp`, `has_co2`, `temperature` and `co2` unchanged. -/
theorem bad_checksum_keeps_state (s : LoopState) (rd : ReadResult)
    (h : (rd.result 3).val
      ≠ ((rd.result 0).val + (rd.result 1).val + (rd.result 2).val) % 256) :
    (loop_body s rd).state.has_temp = s.has_temp ∧
    (loop_body s rd).state.has_co2 = s.has_co2 ∧
    (loop_body s rd).state.temperature = s.temperature ∧
    (loop_body s rd).state.co2 = s.co2 := by
  have hs : (loop_body s rd).state = s := by
    simp only [loop_body]
    split_ifs with h1 h2 h3
    · rfl
    · rfl
    · rfl
    · exact absurd (not_not.mp h3).symm h
  rw [hs]
  exact ⟨rfl, rfl, rfl, rfl⟩

/-- Witness of C6: a temperature frame with a wrong checksum byte changes nothing. -/
theorem bad_checksum_keeps_state_witness :
    (sample_bad_checksum.result 3).val ≠ (0x42 + 0x11 + 0x30) % 256 ∧
    (loop_body sample_state sample_bad_checksum).state.has_temp = 1 ∧
    (loop_body sample_state sample_bad_checksum).state.has_co2 = 1 ∧
    (loop_body sample_state sample_bad_checksum).state.temperature = 37 / 20 ∧
    (loop_body sample_state sample_bad_checksum).state.co2 = 800 :=
  ⟨by decide, bad_checksum_keeps_state sample_state sample_bad_checksum (by decide)⟩

/-- C7: a frame whose byte 4 is not `0x0d` is rejected whatever its checksum byte: the four
variables are unchanged, and for a successfully read frame the pass prints the terminator
report and nothing else (never a checksum report) and goes on with the loop. -/
theorem bad_terminator_rejected (s : LoopState) (rd : ReadResult)
    (h : (rd.result 4).val ≠ 0x0d) :
    (loop_body s rd).state = s ∧
    (0 < rd.r → loop_body s rd = ⟨s, [.unexpected_data (rd.result 4).val], false⟩) ∧
    (∀ checksum r3, Record.checksum_error checksum r3 ∉ (loop_body s rd).out) := by
  simp only [loop_body]
  by_cases hr : rd.r ≤ 0
  · simp [hr]
  · simp [hr, h]

/-- Witness of C7: a frame with a correct checksum and terminator `0x0a` is reported as a
terminator mismatch. -/
theorem bad_terminator_rejected_witness :
    (sample_bad_terminator.result 4).val ≠ 0x0d ∧
    (sample_bad_terminator.result 3).val = (0x50 + 0x03 + 0x20) % 256 ∧
    loop_body sample_state sample_bad_terminator
      = ⟨sample_state, [.unexpected_data 0x0a], false⟩ :=
  ⟨by decide, by decide,
   (bad_terminator_rejected sample_state sample_bad_terminator (by decide)).2.1 (by decide)⟩

/-- C8: a valid frame with code `0x50` and raw value `w` is discarded when `w > 3000` (all
four variables unchanged); when `w ≤ 3000` it sets `co2` to `w` and `has_co2` to 1 and
leaves `has_temp` and `temperature` unchanged. -/
theorem co2_frame_effect (s : LoopState) (rd : ReadResult) (hr : 0 < rd.r)
    (hv : valid_frame rd.result) (hc : (rd.result 0).val = 0x50) :
    (3000 < raw_value rd.result → (loop_body s rd).state = s) ∧
    (raw_value rd.result ≤ 3000 →
      (loop_body s rd).state.co2 = (raw_value rd.result : Int) ∧
      (loop_body s rd).state.has_co2 = 1 ∧
      (loop_body s rd).state.has_temp = s.has_temp ∧
      (loop_body s rd).state.temperature = s.temperature) := by
  rw [loop_body_valid s rd hr hv, hc]
  constructor
  · intro hw
    simp [dispatch, CODE_TAMB, CODE_CNTR, hw]
  · intro hw
    have hw' : ¬ 3000 < raw_value rd.result := not_lt.mpr hw
    simp [dispatch, CODE_TAMB, CODE_CNTR, hw']

/-- Witness of C8: a valid CO2 frame with `w = 3000` is taken. -/
theorem co2_frame_effect_witness :
    raw_value sample_co2_3000.result = 3000 ∧
    (loop_body sample_running_state sample_co2_3000).state.co2 = 3000 ∧
    (loop_body sample_running_state sample_co2_3000).state.has_co2 = 1 ∧
    (loop_body sample_running_state sample_co2_3000).state.has_temp = 1 ∧
    (loop_body sample_running_state sample_co2_3000).state.temperature = 37 / 20 :=
  ⟨by decide,
   (co2_frame_effect sample_running_state sample_co2_3000 (by decide) (by decide)
     (by decide)).2 (by decide)⟩

/-- C9 (counterexample): on the valid temperature frame `42 11 30 83 0d` (`w = 4400`) the
stored temperature is the binary64 value `16272772091085 / 2 ^ 43`, which is
1.8500000000000227..., and not the exact rational `4400 / 16 - 5463 / 20 = 1.85`. -/
theorem stored_temperature_not_exact :
    (0 : Int) < sample_temp_4400.r ∧ valid_frame sample_temp_4400.result ∧
    (sample_temp_4400.result 0).val = 0x42 ∧ raw_value sample_temp_4400.result = 4400 ∧
    (loop_body sample_running_state sample_temp_4400).state.temperature
      = 16272772091085 / 2 ^ 43 ∧
    (loop_body sample_running_state sample_temp_4400).state.temperature
      ≠ (4400 : ℚ) / 16 - 5463 / 20 ∧
    (loop_body sample_running_state sample_temp_4400).state.temperature ≠ 1.85 := by
  have hbody : (loop_body sample_running_state sample_temp_4400).state.temperature
      = decode_temperature 4400 := rfl
  rw [hbody, decode_temperature_4400_exact]
  refine ⟨by decide, by decide, by decide, by decide, ?_, ?_, ?_⟩ <;> norm_num

/-- C9 (amended): a valid frame with code `0x42` and raw value `w` (below 65536) stores in
`temperature` the binary64 result of `(double)w * 0.0625 - 273.15`, which lies within
`1 / 10 ^ 11` of the exact rational `w / 16 - 5463 / 20` and which `%.4f` renders as exactly
`w / 16 - 5463 / 20`; it sets `has_temp` to 1 and leaves `has_co2` and `co2` unchanged; for
`w = 4400` the rendered value is `1.85`. -/
theorem temperature_frame_effect (s : LoopState) (rd : ReadResult) (hr : 0 < rd.r)
    (hv : valid_frame rd.result) (hc : (rd.result 0).val = 0x42) :
    raw_value rd.result < 65536 ∧
    (loop_body s rd).state.temperature = decode_temperature (raw_value rd.result) ∧
    |(loop_body s rd).state.temperature - ((raw_value rd.result : ℚ) / 16 - 5463 / 20)|
      ≤ 1 / 10 ^ 11 ∧
    printf_4f (loop_body s rd).state.temperature
      = (raw_value rd.result : ℚ) / 16 - 5463 / 20 ∧
    (loop_body s rd).state.has_temp = 1 ∧
    (loop_body s rd).state.has_co2 = s.has_co2 ∧
    (loop_body s rd).state.co2 = s.co2 ∧
    (raw_value rd.result = 4400 → printf_4f (loop_body s rd).state.temperature = 1.85) := by
  rw [loop_body_valid s rd hr hv, hc]
  have hd : dispatch s 0x42 (raw_value rd.result)
      = { s with temperature := decode_temperature (raw_value rd.result), has_temp := 1 } := by
    simp [dispatch, CODE_TAMB]
  rw [hd]
  have hlt : raw_value rd.result < 65536 := Nat.mod_lt _ (by norm_num)
  have hexact : ((raw_value rd.result : ℚ) * 0.0625 - 273.15)
      = (raw_value rd.result : ℚ) / 16 - 5463 / 20 := by
    norm_num; ring
  have herr := decode_temperature_error (raw_value rd.result) hlt
  have hprint := printf_4f_decode_temperature (raw_value rd.result) hlt
  rw [hexact] at herr hprint
  refine ⟨hlt, rfl, herr, hprint, rfl, rfl, rfl, ?_⟩
  intro hw
  show printf_4f (decode_temperature (raw_value rd.result)) = 1.85
  rw [hw, printf_4f_decode_4400]

/-- Witness of C9 (amended): the valid temperature frame `42 11 30 83 0d` has `w = 4400`;
the value it stores is within `1 / 10 ^ 11` of 1.85 and is rendered as 1.85. -/
theorem temperature_frame_effect_witness :
    raw_value sample_temp_4400.result = 4400 ∧
    |(loop_body sample_running_state sample_temp_4400).state.temperature
      - ((raw_value sample_temp_4400.result : ℚ) / 16 - 5463 / 20)| ≤ 1 / 10 ^ 11 ∧
    printf_4f (loop_body sample_running_state sample_temp_4400).state.temperature = 1.85 :=
  ⟨by decide,
   (temperature_frame_effect sample_running_state sample_temp_4400 (by decide) (by decide)
     (by decide)).2.2.1,
   (temperature_frame_effect sample_running_state sample_temp_4400 (by decide) (by decide)
     (by decide)).2.2.2.2.2.2.2 (by decide)⟩

/-! ## Key exchange -/

/-- C10: when the key write returns 0 (failure), whatever the reads would return,
`device_loop` returns after the key write and one print: no read is made, the key-exchange
failure record is the only record printed, and no success record is printed. -/
theorem key_exchange_failure_no_reads (send_ret : Int) (h : send_ret = 0)
    (reads : List ReadResult) :
    device_loop send_ret reads
      = some [.send_magic_table magic_table, .fprintf .magic_table_error] ∧
    ∀ ev, device_loop send_ret reads = some ev →
      reads_performed ev = 0 ∧ printed ev = [.magic_table_error] ∧
      ∀ rec ∈ printed ev, rec.success = false := by
  subst h
  have hd : device_loop 0 reads
      = some [.send_magic_table magic_table, .fprintf .magic_table_error] := by
    simp [device_loop, lnot]
  refine ⟨hd, fun ev hev => ?_⟩
  rw [hd] at hev
  cases hev
  simp [reads_performed, printed, Record.success]

/-- Witness of C10: with a failing key write, a pending valid temperature frame is never
read. -/
theorem key_exchange_failure_no_reads_witness :
    device_loop 0 [sample_temp_4400, sample_co2_3000]
      = some [.send_magic_table magic_table, .fprintf .magic_table_error] :=
  (key_exchange_failure_no_reads 0 rfl [sample_temp_4400, sample_co2_3000]).1

/-! ## The session key -/

theorem while_loop_events (mt : co2mon_data_t) (reads : List ReadResult) (s s' : LoopState)
    (ev : List Event) (hrun : while_loop mt s reads = some (s', ev)) :
    ∀ e ∈ ev, e = .read_data mt ∨ ∃ rec, e = .fprintf rec := by
  induction reads generalizing s s' ev with
  | nil =>
    cases hc : loop_cond s with
    | true => rw [while_loop_nil mt s hc] at hrun; cases hrun
    | false =>
      rw [while_loop_done mt s [] hc] at hrun
      cases hrun
      simp
  | cons rd rest ih =>
    cases hc : loop_cond s with
    | false =>
      rw [while_loop_done mt s _ hc] at hrun
      cases hrun
      simp
    | true =>
      by_cases hr : rd.r ≤ 0
      · rw [while_loop_failed mt s rd rest hc hr] at hrun
        cases hrun
        intro e he
        rcases List.mem_cons.mp he with he | he
        · exact Or.inl he
        · exact Or.inr ⟨.read_error, by simpa using he⟩
      · rw [while_loop_next mt s rd rest hc (not_le.mp hr)] at hrun
        cases hw : while_loop mt (loop_body s rd).state rest with
        | none => rw [hw] at hrun; cases hrun
        | some q =>
          obtain ⟨s'', ev'⟩ := q
          rw [hw] at hrun
          cases hrun
          intro e he
          rcases List.mem_append.mp he with he | he
          · rcases List.mem_cons.mp he with he | he
            · exact Or.inl he
            · obtain ⟨rec, -, hrec⟩ := List.mem_map.mp he
              exact Or.inr ⟨rec, hrec.symm⟩
          · exact ih _ _ ev' hw e he

/-- C11: in every session in which `device_loop` returns, the first thing it does is the one
key write, made with the all-zero key; nothing after it is a key write, so every read comes
after it, and every read is passed that same all-zero key. -/
theorem key_sent_once_all_zero (send_ret : Int) (reads : List ReadResult) (ev : List Event)
    (hev : device_loop send_ret reads = some ev) :
    ∃ rest, ev = .send_magic_table magic_table :: rest ∧
      (∀ mt, Event.send_magic_table mt ∉ rest) ∧
      (∀ mt, Event.read_data mt ∈ ev → mt = magic_table) ∧
      (∀ i, magic_table i = 0) := by
  by_cases hs : send_ret = 0
  · subst hs
    rw [device_loop_of_not_sent] at hev
    cases hev
    exact ⟨_, rfl, by simp, by simp, fun _ => rfl⟩
  · rw [device_loop_of_sent send_ret hs] at hev
    cases hw : while_loop magic_table ⟨0, 0, 0.0, 0⟩ reads with
    | none => rw [hw] at hev; cases hev
    | some q =>
      obtain ⟨s, ev'⟩ := q
      rw [hw] at hev
      cases hev
      have hloop := while_loop_events magic_table reads _ s ev' hw
      refine ⟨ev' ++ [Event.fprintf (Record.data (printf_4f s.temperature) s.co2)], rfl, ?_, ?_,
        fun _ => rfl⟩
      · intro mt hmem
        rcases List.mem_append.mp hmem with h | h
        · rcases hloop _ h with h' | ⟨rec, h'⟩ <;> cases h'
        · simp at h
      · intro mt hmem
        have hmem' : Event.read_data mt ∈ ev' ++ [.fprintf (.data (printf_4f s.temperature) s.co2)] := by
          simpa using hmem
        rcases List.mem_append.mp hmem' with h | h
        · rcases hloop _ h with h' | ⟨rec, h'⟩
          · cases h'; rfl
          · cases h'
        · simp at h

/-- Witness of C11: on the end-to-end scenario the key write comes first, once, and the five
reads are passed the all-zero key. -/
theorem key_sent_once_all_zero_witness :
    ∃ rest, scenario_events = .send_magic_table magic_table :: rest ∧
      (∀ mt, Event.send_magic_table mt ∉ rest) ∧
      (∀ mt, Event.read_data mt ∈ scenario_events → mt = magic_table) ∧
      (∀ i, magic_table i = 0) :=
  key_sent_once_all_zero 1 scenario_reads scenario_events rfl

/-! ## Opening and closing the device -/

theorem close_calls_append (l₁ l₂ : List MainEvent) :
    close_calls (l₁ ++ l₂) = close_calls l₁ + close_calls l₂ := by
  induction l₁ with
  | nil => simp [close_calls]
  | cons e l ih => cases e <;> simp [close_calls, ih]; omega

theorem close_calls_device_loop (dev : co2mon_device) (ev : List Event) :
    close_calls (ev.map (.device_loop dev)) = 0 := by
  induction ev with
  | nil => rfl
  | cons e l ih => simpa [close_calls] using ih

theorem close_calls_open_device (file : Option String) (open_ret : co2mon_device) :
    close_calls (open_device file open_ret).2 = 0 := by
  cases file <;> rfl

theorem device_loop_events_open_device (file : Option String) (open_ret : co2mon_device) :
    device_loop_events (open_device file open_ret).2 = 0 := by
  cases file <;> rfl

theorem open_device_fst (file : Option String) (open_ret : co2mon_device) :
    (open_device file open_ret).1 = open_ret := by
  cases file <;> rfl

theorem main_loop_not_opened (file : Option String) (send_ret : Int)
    (reads : List ReadResult) :
    main_loop file NULL send_ret reads
      = some ((open_device file NULL).2 ++ [.fprintf_open_error]) := by
  simp [main_loop, open_device_fst, lnot]

theorem main_loop_opened (file : Option String) (open_ret : co2mon_device)
    (h : open_ret ≠ NULL) (send_ret : Int) (reads : List ReadResult) :
    main_loop file open_ret send_ret reads =
      (device_loop send_ret reads).map fun ev =>
        (open_device file open_ret).2 ++ ev.map (.device_loop open_ret)
          ++ [.co2mon_close_device open_ret] := by
  simp only [main_loop, open_device_fst, h, if_false]
  cases device_loop send_ret reads <;> rfl

/-- C12: when the open call returns `NULL`, whatever the key write and the reads would
return, `main_loop` returns after the open call and one print: the device-open failure
record is its only output, and the run has no event of `device_loop` (no key write, no read)
and no close. -/
theorem open_failure_only_record (file : Option String) (send_ret : Int)
    (reads : List ReadResult) :
    main_loop file NULL send_ret reads
      = some ((open_device file NULL).2 ++ [.fprintf_open_error]) ∧
    main_loop devicefile NULL send_ret reads
      = some [.co2mon_open_device, .fprintf_open_error] ∧
    ∀ ev, main_loop file NULL send_ret reads = some ev →
      device_loop_events ev = 0 ∧ close_calls ev = 0 := by
  refine ⟨main_loop_not_opened file send_ret reads,
    main_loop_not_opened devicefile send_ret reads, fun ev hev => ?_⟩
  rw [main_loop_not_opened] at hev
  cases hev
  cases file <;> exact ⟨rfl, rfl⟩

/-- Witness of C12: with the open failing, a pending successful session is never started. -/
theorem open_failure_only_record_witness :
    main_loop devicefile NULL 1 scenario_reads
      = some [.co2mon_open_device, .fprintf_open_error] :=
  (open_failure_only_record devicefile 1 scenario_reads).2.1

/-- C13: when the open call returns a handle and `device_loop` returns, `main_loop` makes
exactly one `co2mon_close_device` call, on that handle, as its last action, after every
event of `device_loop` on the handle; when the open call returns `NULL` it makes none. -/
theorem close_once_after_device_loop (file : Option String) (open_ret : co2mon_device)
    (send_ret : Int) (reads : List ReadResult) :
    (open_ret ≠ NULL → ∀ dev_ev, device_loop send_ret reads = some dev_ev →
      ∃ ev, main_loop file open_ret send_ret reads = some ev ∧
        ev = (open_device file open_ret).2 ++ dev_ev.map (.device_loop open_ret)
          ++ [.co2mon_close_device open_ret] ∧
        close_calls ev = 1) ∧
    (∀ ev, main_loop file NULL send_ret reads = some ev → close_calls ev = 0) := by
  constructor
  · intro hopen dev_ev hdev
    refine ⟨_, by rw [main_loop_opened file open_ret hopen, hdev]; rfl, rfl, ?_⟩
    rw [close_calls_append, close_calls_append, close_calls_open_device,
      close_calls_device_loop]
    rfl
  · intro ev hev
    rw [main_loop_not_opened] at hev
    cases hev
    rw [close_calls_append, close_calls_open_device]
    rfl

/-- Witness of C13: with handle 7, a key write that fails is followed by the one close. -/
theorem close_once_after_device_loop_witness :
    (7 : co2mon_device) ≠ NULL ∧
    ∃ ev, main_loop devicefile 7 0 scenario_reads = some ev ∧
      ev = [.co2mon_open_device,
        .device_loop 7 (.send_magic_table magic_table),
        .device_loop 7 (.fprintf .magic_table_error),
        .co2mon_close_device 7] ∧
      close_calls ev = 1 :=
  ⟨by decide,
   (close_once_after_device_loop devicefile 7 0 scenario_reads).1 (by decide)
     [.send_magic_table magic_table, .fprintf .magic_table_error] rfl⟩

/-! ## The raw value and the loop condition -/

/-- C14: for every frame, the raw value the code computes from bytes 1 and 2, the sum
`(b1 << 8) + b2` truncated to 16 bits, equals `(b1 << 8) | b2` and `256 * b1 + b2`, is below
65536, and the sum is itself below 65536, so that the truncation changes nothing. -/
theorem raw_value_big_endian (result : co2mon_data_t) :
    raw_value result = ((result 1).val <<< 8) ||| (result 2).val ∧
    raw_value result = 256 * (result 1).val + (result 2).val ∧
    raw_value result < 65536 ∧
    ((result 1).val <<< 8) + (result 2).val < 65536 := by
  have h1 : (result 1).val < 256 := (result 1).isLt
  have h2 : (result 2).val < 256 := (result 2).isLt
  have hshift : (result 1).val <<< 8 = 2 ^ 8 * (result 1).val := by
    rw [Nat.shiftLeft_eq, Nat.mul_comm]
  have hor : 2 ^ 8 * (result 1).val + (result 2).val
      = 2 ^ 8 * (result 1).val ||| (result 2).val :=
    Nat.mul_add_lt_is_or (by omega) _
  have hlt : 2 ^ 8 * (result 1).val + (result 2).val < 65536 := by omega
  have hraw : raw_value result = 2 ^ 8 * (result 1).val + (result 2).val := by
    rw [raw_value, hshift, Nat.mod_eq_of_lt hlt]
  refine ⟨?_, ?_, ?_, ?_⟩
  · rw [hraw, hshift]; exact hor
  · rw [hraw]; norm_num
  · rw [hraw]; exact hlt
  · rw [hshift]; exact hlt

theorem lnot_lor_ne_zero (a b : Int) :
    Int.lor (lnot a) (lnot b) ≠ 0 ↔ ¬ (a ≠ 0 ∧ b ≠ 0) := by
  simp only [lnot]
  by_cases h1 : a = 0 <;> by_cases h2 : b = 0 <;> simp [h1, h2] <;> decide

theorem loop_cond_eq_spec (s : LoopState) : loop_cond s = spec_loop_cond s := by
  cases hc : loop_cond s with
  | false =>
    obtain ⟨h1, h2⟩ := (loop_cond_false_iff s).mp hc
    simp [spec_loop_cond, h1, h2]
  | true =>
    have hn : ¬ (s.has_temp ≠ 0 ∧ s.has_co2 ≠ 0) := fun h => by
      rw [(loop_cond_false_iff s).mpr h] at hc
      cases hc
    by_cases h1 : s.has_temp = 0
    · simp [spec_loop_cond, h1]
    · have h2 : s.has_co2 = 0 := by
        by_contra h2
        exact hn ⟨h1, h2⟩
      simp [spec_loop_cond, h2]

/-- C15: for all integer values of `has_temp` and `has_co2`, the condition of line 66,
`!has_temp | !has_co2`, is non-zero exactly when not both are non-zero; the loop condition
of the code equals the standard boolean one in every state, and the loop run with the
boolean condition does the same as the loop of the code on every state and every sequence
of read results. -/
theorem bitwise_condition_is_logical :
    (∀ has_temp has_co2 : Int,
      Int.lor (lnot has_temp) (lnot has_co2) ≠ 0 ↔ ¬ (has_temp ≠ 0 ∧ has_co2 ≠ 0)) ∧
    (∀ s, loop_cond s = spec_loop_cond s) ∧
    (∀ mt s reads, while_loop mt s reads = spec_while_loop mt s reads) := by
  refine ⟨lnot_lor_ne_zero, loop_cond_eq_spec, fun mt s reads => ?_⟩
  induction reads generalizing s with
  | nil => simp only [while_loop, spec_while_loop, loop_cond_eq_spec]
  | cons rd rest ih =>
    simp only [while_loop, spec_while_loop, loop_cond_eq_spec, ih]

/-- C16: a valid frame whose code is neither `0x42` nor `0x50` leaves `has_temp`, `has_co2`,
`temperature` and `co2` unchanged, prints nothing and does not leave the loop: with the loop
running, the run goes on from the same state with the remaining reads, so that another read
is made. -/
theorem other_code_ignored (s : LoopState) (rd : ReadResult) (hr : 0 < rd.r)
    (hv : valid_frame rd.result) (h42 : (rd.result 0).val ≠ 0x42)
    (h50 : (rd.result 0).val ≠ 0x50) :
    loop_body s rd = ⟨s, [], false⟩ ∧
    (loop_cond s = true →
      while_loop magic_table s [rd] = none ∧
      (∀ rest, while_loop magic_table s (rd :: rest) =
        (while_loop magic_table s rest).map fun p =>
          (p.1, .read_data magic_table :: p.2)) ∧
      (∀ rd2 rest res, while_loop magic_table s (rd :: rd2 :: rest) = some res →
        2 ≤ reads_performed res.2)) := by
  have hbody : loop_body s rd = ⟨s, [], false⟩ := by
    rw [loop_body_valid s rd hr hv]
    simp [dispatch, CODE_TAMB, CODE_CNTR, h42, h50]
  refine ⟨hbody, fun hc => ?_⟩
  have hnext : ∀ rest, while_loop magic_table s (rd :: rest) =
      (while_loop magic_table s rest).map fun p =>
        (p.1, .read_data magic_table :: p.2) := by
    intro rest
    rw [while_loop_next magic_table s rd rest hc hr, hbody]
    rfl
  refine ⟨?_, hnext, ?_⟩
  · rw [hnext, while_loop_nil _ _ hc]; rfl
  · intro rd2 rest res hres
    rw [hnext] at hres
    by_cases hr2 : rd2.r ≤ 0
    · rw [while_loop_failed _ _ _ _ hc hr2] at hres
      cases hres
      simp [reads_performed]
    · rw [while_loop_next _ _ _ _ hc (not_le.mp hr2)] at hres
      cases hw : while_loop magic_table (loop_body s rd2).state rest with
      | none => rw [hw] at hres; cases hres
      | some q =>
        rw [hw] at hres
        cases hres
        simp [reads_performed]

/-- Witness of C16: the valid frame `41 0c 10 5d 0d` changes nothing. -/
theorem other_code_ignored_witness :
    (0 : Int) < sample_other_code.r ∧ valid_frame sample_other_code.result ∧
    loop_body sample_running_state sample_other_code = ⟨sample_running_state, [], false⟩ :=
  ⟨by decide, by decide,
   (other_code_ignored sample_running_state sample_other_code (by decide) (by decide)
     (by decide) (by decide)).1⟩

/-! ## Invariants of the loop -/

theorem while_loop_induct (mt : co2mon_data_t)
    (P : LoopState → List ReadResult → LoopState → List Event → Prop)
    (done : ∀ s reads, loop_cond s = false → P s reads s [])
    (failed : ∀ s rd rest, loop_cond s = true → rd.r ≤ 0 →
      P s (rd :: rest) s [.read_data mt, .fprintf .read_error])
    (next : ∀ s rd rest s' ev', loop_cond s = true → 0 < rd.r →
      while_loop mt (loop_body s rd).state rest = some (s', ev') →
      P (loop_body s rd).state rest s' ev' →
      P s (rd :: rest) s' (iteration_events mt (loop_body s rd) ++ ev'))
    (reads : List ReadResult) (s s' : LoopState) (ev : List Event)
    (hrun : while_loop mt s reads = some (s', ev)) : P s reads s' ev := by
  induction reads generalizing s s' ev with
  | nil =>
    cases hc : loop_cond s with
    | true => rw [while_loop_nil mt s hc] at hrun; cases hrun
    | false =>
      rw [while_loop_done mt s [] hc] at hrun
      cases hrun
      exact done _ _ hc
  | cons rd rest ih =>
    cases hc : loop_cond s with
    | false =>
      rw [while_loop_done mt s _ hc] at hrun
      cases hrun
      exact done _ _ hc
    | true =>
      by_cases hr : rd.r ≤ 0
      · rw [while_loop_failed mt s rd rest hc hr] at hrun
        cases hrun
        exact failed _ rd rest hc hr
      · rw [while_loop_next mt s rd rest hc (not_le.mp hr)] at hrun
        cases hw : while_loop mt (loop_body s rd).state rest with
        | none => rw [hw] at hrun; cases hrun
        | some q =>
          obtain ⟨s'', ev'⟩ := q
          rw [hw] at hrun
          cases hrun
          exact next _ rd rest _ ev' hc (not_le.mp hr) hw (ih _ _ ev' hw)

theorem while_loop_state (mt : co2mon_data_t) (reads : List ReadResult) (s s' : LoopState)
    (ev : List Event) (hrun : while_loop mt s reads = some (s', ev)) :
    s' = run_frames s (reads.take (reads_performed ev)) := by
  refine while_loop_induct mt
    (fun s reads s' ev => s' = run_frames s (reads.take (reads_performed ev)))
    ?_ ?_ ?_ reads s s' ev hrun
  · intro s reads _
    simp [run_frames, reads_performed]
  · intro s rd rest _ hr
    simp [run_frames, reads_performed, loop_body_failed s rd hr]
  · intro s rd rest s' ev' _ _ _ ih
    have hn : reads_performed (iteration_events mt (loop_body s rd) ++ ev')
        = reads_performed ev' + 1 := by
      simp; omega
    rw [hn, List.take_succ_cons, run_frames_cons]
    exact ih

theorem loop_body_out_not_success (s : LoopState) (rd : ReadResult) :
    ∀ rec ∈ (loop_body s rd).out, rec.success = false := by
  simp only [loop_body]
  split_ifs <;> simp [Record.success]

theorem while_loop_printed (mt : co2mon_data_t) (reads : List ReadResult) (s s' : LoopState)
    (ev : List Event) (hrun : while_loop mt s reads = some (s', ev)) :
    ∀ rec ∈ printed ev, rec.success = false := by
  refine while_loop_induct mt (fun _ _ _ ev => ∀ rec ∈ printed ev, rec.success = false)
    ?_ ?_ ?_ reads s s' ev hrun
  · intro s reads _
    simp [printed]
  · intro s rd rest _ _
    simp [printed, Record.success]
  · intro s rd rest s' ev' _ _ _ ih rec hrec
    rw [printed_append, printed_iteration] at hrec
    rcases List.mem_append.mp hrec with h | h
    · exact loop_body_out_not_success s rd rec h
    · exact ih rec h

theorem loop_body_co2_in_range (s : LoopState) (rd : ReadResult)
    (h : co2_in_range s.co2) : co2_in_range (loop_body s rd).state.co2 := by
  rw [loop_body_state]
  by_cases ht : accepted_temp rd
  · simpa [ht] using h
  · by_cases hc : accepted_co2 rd
    · have hw : raw_value rd.result ≤ 3000 := hc.2.2.2
      simp only [ht, hc, if_true, if_false, co2_in_range]
      constructor
      · exact Int.natCast_nonneg _
      · exact_mod_cast hw
    · simpa [ht, hc] using h

theorem run_frames_co2_in_range (frames : List ReadResult) (s : LoopState)
    (h : co2_in_range s.co2) : co2_in_range (run_frames s frames).co2 := by
  induction frames generalizing s with
  | nil => exact h
  | cons rd frames ih =>
    rw [run_frames_cons]
    exact ih _ (loop_body_co2_in_range s rd h)

/-- C17: `co2` lies in `[0, 3000]` throughout: the range holds for the initial value 0, every
pass through the loop body preserves it whatever the read returns, so it holds after any
sequence of read results, and every success record that `device_loop` prints carries a
`co2` value in the range. -/
theorem co2_always_in_range :
    co2_in_range (LoopState.mk 0 0 0.0 0).co2 ∧
    (∀ s rd, co2_in_range s.co2 → co2_in_range (loop_body s rd).state.co2) ∧
    (∀ frames, co2_in_range (run_frames ⟨0, 0, 0.0, 0⟩ frames).co2) ∧
    (∀ send_ret reads ev temperature co2, device_loop send_ret reads = some ev →
      Record.data temperature co2 ∈ printed ev → co2_in_range co2) := by
  have h0 : co2_in_range (LoopState.mk 0 0 0.0 0).co2 := by
    simp [co2_in_range]
  refine ⟨h0, loop_body_co2_in_range, fun frames => run_frames_co2_in_range frames _ h0, ?_⟩
  intro send_ret reads ev temperature co2 hev hmem
  by_cases hs : send_ret = 0
  · subst hs
    rw [device_loop_of_not_sent] at hev
    cases hev
    simp [printed] at hmem
  · rw [device_loop_of_sent send_ret hs] at hev
    cases hw : while_loop magic_table ⟨0, 0, 0.0, 0⟩ reads with
    | none => rw [hw] at hev; cases hev
    | some q =>
      obtain ⟨s, ev'⟩ := q
      rw [hw] at hev
      cases hev
      have hmem' : Record.data temperature co2
          ∈ printed ev' ++ [Record.data (printf_4f s.temperature) s.co2] := by
        simpa [printed] using hmem
      rcases List.mem_append.mp hmem' with h | h
      · have := while_loop_printed magic_table reads _ s ev' hw _ h
        simp [Record.success] at this
      · have hst := while_loop_state magic_table reads _ s ev' hw
        have hin := run_frames_co2_in_range (reads.take (reads_performed ev'))
          ⟨0, 0, 0.0, 0⟩ h0
        rw [← hst] at hin
        have heq : Record.data temperature co2 = Record.data (printf_4f s.temperature) s.co2 := by
          simpa using h
        cases heq
        exact hin

/-- Witness of C17: a CO2 frame with `w = 5000` leaves `co2 = 800` in range, and the success
record of the end-to-end scenario carries a `co2` value in range. -/
theorem co2_always_in_range_witness :
    co2_in_range sample_state.co2 ∧
    co2_in_range (loop_body sample_state sample_co2_5000).state.co2 ∧
    co2_in_range 800 :=
  ⟨by simp [co2_in_range, sample_state],
   co2_always_in_range.2.1 sample_state sample_co2_5000 (by simp [co2_in_range, sample_state]),
   co2_always_in_range.2.2.2 1 scenario_reads scenario_events
     (printf_4f (decode_temperature 4400)) 800 rfl
     (by simp [scenario_events, printed])⟩

/-! ## The number of reads -/

theorem ends_in_read_error_cons (rd : ReadResult) (p : List ReadResult) (hr : 0 < rd.r) :
    ends_in_read_error (rd :: p) ↔ ends_in_read_error p := by
  unfold ends_in_read_error
  rw [List.getLast?_cons]
  cases p.getLast? with
  | none => simpa using hr
  | some y => simp

theorem stopping_from_cons (s : LoopState) (rd : ReadResult) (p : List ReadResult)
    (hr : 0 < rd.r) :
    stopping_from s (rd :: p) ↔ stopping_from (loop_body s rd).state p := by
  unfold stopping_from
  rw [ends_in_read_error_cons rd p hr, step_has_temp, step_has_co2]
  simp only [List.mem_cons, exists_eq_or_imp, or_assoc]

theorem stopping_from_nil (s : LoopState) :
    stopping_from s [] ↔ loop_cond s = false := by
  rw [loop_cond_false_iff]
  simp [stopping_from, ends_in_read_error]

theorem stopping_iff_from (p : List ReadResult) :
    stopping p ↔ stopping_from ⟨0, 0, 0.0, 0⟩ p := by
  simp [stopping, stopping_from]

theorem while_loop_reads (mt : co2mon_data_t) (reads : List ReadResult) (s : LoopState)
    (k : Nat) (hk : k ≤ reads.length) (hstop : stopping_from s (reads.take k))
    (hmin : ∀ j, j < k → ¬ stopping_from s (reads.take j)) :
    ∃ res, while_loop mt s reads = some res ∧ reads_performed res.2 = k := by
  induction reads generalizing s k with
  | nil =>
    have hk0 : k = 0 := by simpa using hk
    subst hk0
    refine ⟨(s, []), while_loop_done mt s [] ((stopping_from_nil s).mp ?_), rfl⟩
    simpa using hstop
  | cons rd rest ih =>
    cases k with
    | zero =>
      refine ⟨(s, []), while_loop_done mt s _ ((stopping_from_nil s).mp ?_), rfl⟩
      simpa using hstop
    | succ k =>
      have hc : loop_cond s = true := by
        cases hc : loop_cond s with
        | true => rfl
        | false =>
          exact absurd ((stopping_from_nil s).mpr hc)
            (by simpa using hmin 0 (Nat.succ_pos k))
      by_cases hr : rd.r ≤ 0
      · refine ⟨_, while_loop_failed mt s rd rest hc hr, ?_⟩
        cases k with
        | zero => simp [reads_performed]
        | succ k =>
          have h1 : stopping_from s (List.take 1 (rd :: rest)) := by
            left
            simpa [ends_in_read_error] using hr
          exact absurd h1 (hmin 1 (by omega))
      · have hpos : 0 < rd.r := not_le.mp hr
        rw [List.take_succ_cons, stopping_from_cons s rd _ hpos] at hstop
        have hmin' : ∀ j, j < k → ¬ stopping_from (loop_body s rd).state (rest.take j) := by
          intro j hj
          have := hmin (j + 1) (by omega)
          rwa [List.take_succ_cons, stopping_from_cons s rd _ hpos] at this
        obtain ⟨res, hres, hn⟩ := ih (loop_body s rd).state k
          (by simpa using hk) hstop hmin'
        refine ⟨(res.1, iteration_events mt (loop_body s rd) ++ res.2), ?_, ?_⟩
        · rw [while_loop_next mt s rd rest hc hpos, hres]; rfl
        · simp [hn]; omega

/-- C18: when the read results have a stopping beginning (one that ends in a read error, or
that contains both an accepted temperature frame and an accepted CO2 frame) and `k` is the
length of the shortest one, the loop of lines 61-114 ends after exactly `k` reads, and so
does `device_loop` after a successful key write; and no pass through the loop body clears
an observed flag. -/
theorem reads_until_shortest_stopping (reads : List ReadResult) (k : Nat)
    (hk : k ≤ reads.length) (hstop : stopping (reads.take k))
    (hmin : ∀ j, j < k → ¬ stopping (reads.take j)) :
    (∃ res, while_loop magic_table ⟨0, 0, 0.0, 0⟩ reads = some res ∧
      reads_performed res.2 = k) ∧
    (∀ send_ret : Int, send_ret ≠ 0 →
      ∃ ev, device_loop send_ret reads = some ev ∧ reads_performed ev = k) ∧
    (∀ s rd, s.has_temp ≠ 0 → (loop_body s rd).state.has_temp ≠ 0) ∧
    (∀ s rd, s.has_co2 ≠ 0 → (loop_body s rd).state.has_co2 ≠ 0) := by
  obtain ⟨⟨s, ev'⟩, hres, hn⟩ := while_loop_reads magic_table reads ⟨0, 0, 0.0, 0⟩ k hk
    ((stopping_iff_from _).mp hstop) fun j hj h => hmin j hj ((stopping_iff_from _).mpr h)
  refine ⟨⟨(s, ev'), hres, hn⟩, fun send_ret hsend => ?_,
    fun s rd h => (step_has_temp s rd).mpr (Or.inl h),
    fun s rd h => (step_has_co2 s rd).mpr (Or.inl h)⟩
  refine ⟨.send_magic_table magic_table :: ev' ++ [.fprintf (.data (printf_4f s.temperature) s.co2)],
    by rw [device_loop_of_sent send_ret hsend, hres]; rfl, ?_⟩
  simpa [reads_performed] using hn

/-- Witness of C18: on the end-to-end scenario followed by two more read results, the
shortest stopping beginning has length 5 and exactly five reads are made. -/
theorem reads_until_shortest_stopping_witness :
    stopping (scenario_reads_longer.take 5) ∧
    (∀ j, j < 5 → ¬ stopping (scenario_reads_longer.take j)) ∧
    ∃ ev, device_loop 1 scenario_reads_longer = some ev ∧ reads_performed ev = 5 :=
  ⟨by decide, by decide,
   (reads_until_shortest_stopping scenario_reads_longer 5 (by decide) (by decide)
     (by decide)).2.1 1 (by decide)⟩

/-! ## The exit status -/

/-- C19: when `co2mon_init` returns a negative value, `main` returns that value after the
init call alone (no open call); otherwise `main` returns 1 whenever it returns: it does
so when the open fails, and whenever `device_loop` returns, be it by a key-exchange failure,
a read error or a successful reading. -/
theorem main_exit_status (init_ret : Int) (open_ret : co2mon_device) (send_ret : Int)
    (reads : List ReadResult) :
    (init_ret < 0 → main init_ret open_ret send_ret reads = some (init_ret, [.co2mon_init])) ∧
    (0 ≤ init_ret →
      (open_ret = NULL → ∃ ev, main init_ret open_ret send_ret reads = some (1, ev)) ∧
      (∀ dev_ev, device_loop send_ret reads = some dev_ev →
        ∃ ev, main init_ret open_ret send_ret reads = some (1, ev)) ∧
      (∀ ret ev, main init_ret open_ret send_ret reads = some (ret, ev) → ret = 1)) := by
  constructor
  · intro h
    simp [main, h]
  · intro h
    have hmain : main init_ret open_ret send_ret reads =
        (main_loop devicefile open_ret send_ret reads).map fun ev =>
          (1, .co2mon_init :: ev ++ [.co2mon_exit]) := by
      simp only [main, not_lt.mpr h, if_false]
      cases main_loop devicefile open_ret send_ret reads <;> rfl
    refine ⟨?_, ?_, ?_⟩
    · intro hopen
      subst hopen
      rw [hmain, main_loop_not_opened]
      exact ⟨_, rfl⟩
    · intro dev_ev hdev
      by_cases hopen : open_ret = NULL
      · subst hopen
        rw [hmain, main_loop_not_opened]
        exact ⟨_, rfl⟩
      · rw [hmain, main_loop_opened devicefile open_ret hopen, hdev]
        exact ⟨_, rfl⟩
    · intro ret ev hret
      rw [hmain] at hret
      cases hm : main_loop devicefile open_ret send_ret reads with
      | none => rw [hm] at hret; cases hret
      | some q =>
        rw [hm] at hret
        cases hret
        rfl

/-- Witness of C19: `main` returns -3 when the init call returns -3, and returns 1 after a
failed open, after a failed key write, after a read error and after a successful reading. -/
theorem main_exit_status_witness :
    main (-3) 7 1 scenario_reads = some (-3, [.co2mon_init]) ∧
    (∃ ev, main 0 NULL 1 scenario_reads = some (1, ev)) ∧
    (∃ ev, main 0 7 0 scenario_reads = some (1, ev)) ∧
    (∃ ev, main 0 7 1 [sample_read_error] = some (1, ev)) ∧
    (∃ ev, main 0 7 1 scenario_reads = some (1, ev)) :=
  ⟨(main_exit_status (-3) 7 1 scenario_reads).1 (by decide),
   ((main_exit_status 0 NULL 1 scenario_reads).2 (by decide)).1 rfl,
   ((main_exit_status 0 7 0 scenario_reads).2 (by decide)).2.1 _
     (device_loop_of_not_sent scenario_reads),
   ((main_exit_status 0 7 1 [sample_read_error]).2 (by decide)).2.1
     [.send_magic_table magic_table, .read_data magic_table, .fprintf .read_error,
       .fprintf (.data (printf_4f 0.0) 0)] rfl,
   ((main_exit_status 0 7 1 scenario_reads).2 (by decide)).2.1 scenario_events rfl⟩

end Co2mond
